import Mathlib

/- Shallow embedding of the transaction-explainer pipeline of this
   repository: the resilient JSON-RPC transport layer (src/lib/rpc.ts),
   the gRPC provider ordering (src/lib/grpc.ts), the request route
   (src/app/api/tx/route.ts), the schema-aware argument decoder
   (src/lib/abi.ts) and the offline decoding path.  Timestamps are
   natural-number milliseconds, JavaScript maps are total functions or
   association lists, network transports are oracles, and thrown
   exceptions are Except errors. -/

/-- Provider health record, rpc.ts lines 9-15 and grpc.ts lines 316-323.
The slowCount field exists only in the gRPC variant; the JSON-RPC
functions never read or write it, so it is carried unchanged there. -/
structure ProviderHealth where
  consecutiveFailures : Nat := 0
  openUntil : Option Nat := none
  lastLatencyMs : Option Nat := none
  lastSuccessAt : Option Nat := none
  lastFailureAt : Option Nat := none
  slowCount : Nat := 0
  deriving Repr, DecidableEq

/-- isCircuitOpen, rpc.ts lines 59-62: JavaScript truthiness means an
openUntil of 0 counts as no circuit at all. -/
def isCircuitOpen (now : Nat) (st : ProviderHealth) : Bool :=
  match st.openUntil with
  | none => false
  | some u => if u = 0 then false else decide (now < u)

/-- recordSuccess, rpc.ts lines 64-70. -/
def recordSuccess (st : ProviderHealth) (latencyMs now : Nat) : ProviderHealth :=
  { st with consecutiveFailures := 0, openUntil := none,
            lastLatencyMs := some latencyMs, lastSuccessAt := some now }

/-- recordFailure, rpc.ts lines 72-79. -/
def recordFailure (st : ProviderHealth) (now : Nat) : ProviderHealth :=
  let failures := st.consecutiveFailures + 1
  { st with consecutiveFailures := failures,
            lastFailureAt := some now,
            openUntil := if 3 ≤ failures then some (now + 30000) else st.openUntil }

/-- A configured provider; the JSON-RPC and gRPC clients both carry an id
used as the health-map key and a url reported to the caller. -/
structure RpcProvider where
  id : String
  url : String
  deriving Repr, DecidableEq

/-- The per-process provider health table, getProviderState defaulting a
missing entry to zero failures. -/
abbrev HealthMap := String → ProviderHealth

def updateHealth (h : HealthMap) (pid : String) (st : ProviderHealth) : HealthMap :=
  fun x => if x = pid then st else h x

/-- Lexicographic comparison of equal-length key lists: the first
differing component decides, exactly like a chained JavaScript
comparator that returns the first nonzero difference. -/
def lexLe : List Nat → List Nat → Bool
  | [], _ => true
  | _ :: _, [] => false
  | a :: as, b :: bs => if a < b then true else if b < a then false else lexLe as bs

/-- Stable insertion: x goes after every element y with y not strictly
greater, so elements comparing equal keep their original order. -/
def sortInsert (le : α → α → Bool) (x : α) : List α → List α
  | [] => [x]
  | y :: ys => if le y x then y :: sortInsert le x ys else x :: y :: ys

/-- Insertion sort processing the array left to right.  For a consistent
comparator a stable sort is unique, and Array.prototype.sort is
specified to be stable, so this models the source sort call. -/
def stableSort (le : α → α → Bool) (l : List α) : List α :=
  l.foldl (fun acc x => sortInsert le x acc) []

/-- The three comparator keys of pickProviders, rpc.ts lines 81-92:
open circuit last, then fewer consecutive failures, then lower last
latency with unknown latency as 0. -/
def rpcSortKey (now : Nat) (health : HealthMap) (p : RpcProvider) : List Nat :=
  let st := health p.id
  [if isCircuitOpen now st then 1 else 0, st.consecutiveFailures, st.lastLatencyMs.getD 0]

/-- pickProviders, rpc.ts lines 81-92. -/
def pickProviders (now : Nat) (health : HealthMap) (providers : List RpcProvider) :
    List RpcProvider :=
  stableSort (fun a b => lexLe (rpcSortKey now health a) (rpcSortKey now health b)) providers

/-- The four comparator keys of pickProviders, grpc.ts lines 400-413:
the gRPC variant inserts the slow-response count between the failure
count and the latency. -/
def grpcSortKey (now : Nat) (health : HealthMap) (p : RpcProvider) : List Nat :=
  let st := health p.id
  [if isCircuitOpen now st then 1 else 0, st.consecutiveFailures, st.slowCount,
    st.lastLatencyMs.getD 0]

/-- pickProviders, grpc.ts lines 400-413. -/
def pickProvidersGrpc (now : Nat) (health : HealthMap) (providers : List RpcProvider) :
    List RpcProvider :=
  stableSort (fun a b => lexLe (grpcSortKey now health a) (grpcSortKey now health b)) providers

/-- One rate-limiter window, rpc.ts lines 30-33. -/
structure ThrottleRecord where
  count : Nat
  resetAt : Nat
  deriving Repr, DecidableEq

/-- What checkRateLimit returns to the route. -/
structure RateLimitVerdict where
  allowed : Bool
  remaining : Int
  resetAt : Nat
  deriving Repr, DecidableEq

/-- checkRateLimit, rpc.ts lines 178-196, as a pure function of the
stored record for the client, returning the verdict and the record
written back (the deny branch returns without writing). -/
def checkRateLimit (max windowMs now : Nat) (record : Option ThrottleRecord) :
    RateLimitVerdict × Option ThrottleRecord :=
  match record with
  | none => (⟨true, (max : Int) - 1, now + windowMs⟩, some ⟨1, now + windowMs⟩)
  | some r =>
    if r.resetAt < now then
      (⟨true, (max : Int) - 1, now + windowMs⟩, some ⟨1, now + windowMs⟩)
    else if max ≤ r.count then
      (⟨false, 0, r.resetAt⟩, some r)
    else
      (⟨true, (max : Int) - ((r.count : Int) + 1), r.resetAt⟩, some ⟨r.count + 1, r.resetAt⟩)

/-- Repeated checkRateLimit calls at one instant for one client,
counting how many were allowed and threading the stored record. -/
def runThrottle (max windowMs now : Nat) : Nat → Option ThrottleRecord → Nat × Option ThrottleRecord
  | 0, record => (0, record)
  | n + 1, record =>
    let (verdict, record2) := checkRateLimit max windowMs now record
    let (allowedCount, recordFinal) := runThrottle max windowMs now n record2
    ((if verdict.allowed then 1 else 0) + allowedCount, recordFinal)

/-- One entry of the transaction cache, rpc.ts lines 25-28. -/
structure CacheEntry where
  value : String
  cachedAt : Nat
  deriving Repr, DecidableEq

/-- The fingerprint-keyed response cache, newest first. -/
abbrev TxCache := List (String × CacheEntry)

/-- Cache lookup with the time-to-live check of lru-cache: an entry
older than ttl is a miss. -/
def cacheGet (now ttl : Nat) (cache : TxCache) (key : String) : Option CacheEntry :=
  match cache.lookup key with
  | none => none
  | some e => if now ≤ e.cachedAt + ttl then some e else none

/-- Cache write: the new entry shadows any older entry for the same
fingerprint and the least recently written entry falls off at
capacity. -/
def cacheSet (capacity now : Nat) (cache : TxCache) (key value : String) : TxCache :=
  ((key, ⟨value, now⟩) :: cache.filter (fun kv => kv.1 != key)).take capacity

/-- One JSON-RPC transport attempt against one provider: either a
payload with its observed latency, or the thrown error message.
jsonRpcRequest itself records success or failure on the health map,
which the loop below mirrors. -/
abbrev RpcOracle := RpcProvider → Except String (String × Nat)

/-- The provider loop of getTransactionBlock, rpc.ts lines 146-165:
skip open circuits, attempt the rest in order, remember the last error,
and after the list is exhausted throw the last error or the generic
all-failed error.  Also returns the ids of the providers that were
actually attempted on the network. -/
def attemptProviders (oracle : RpcOracle) (now : Nat) :
    List RpcProvider → HealthMap → Option String →
    HealthMap × List String × Except String (String × String)
  | [], health, lastError => (health, [], .error (lastError.getD "All providers failed"))
  | p :: rest, health, lastError =>
    if isCircuitOpen now (health p.id) then
      attemptProviders oracle now rest health lastError
    else
      match oracle p with
      | .ok (payload, latency) =>
        (updateHealth health p.id (recordSuccess (health p.id) latency now), [p.id],
          .ok (payload, p.url))
      | .error e =>
        let health2 := updateHealth health p.id (recordFailure (health p.id) now)
        let (health3, attempts, res) := attemptProviders oracle now rest health2 (some e)
        (health3, p.id :: attempts, res)

/-- What getTransactionBlock resolves with. -/
structure FetchSuccess where
  data : String
  cached : Bool
  provider : String
  deriving Repr, DecidableEq

/-- getTransactionBlock, rpc.ts lines 133-166: fingerprint the request,
return a fresh cache hit immediately marked cached, otherwise run the
health-ordered provider loop and populate the cache on success.
Returns the cache, the health map, the list of providers attempted on
the network, and the result. -/
def getTransactionBlock (oracle : RpcOracle) (providers : List RpcProvider)
    (health : HealthMap) (now ttl capacity : Nat) (cache : TxCache)
    (digest optionsJson : String) :
    TxCache × HealthMap × List String × Except String FetchSuccess :=
  let cacheKey := digest ++ ":" ++ optionsJson
  match cacheGet now ttl cache cacheKey with
  | some entry => (cache, health, [], .ok ⟨entry.value, true, "cache"⟩)
  | none =>
    let sorted := pickProviders now health providers
    let (health2, attempts, res) := attemptProviders oracle now sorted health none
    match res with
    | .ok (payload, url) =>
      (cacheSet capacity now cache cacheKey payload, health2, attempts, .ok ⟨payload, false, url⟩)
    | .error e => (cache, health2, attempts, .error e)

def isJsWhitespace (c : Char) : Bool := c.isWhitespace

/-- String.prototype.trim on the character list. -/
def jsTrimChars (cs : List Char) : List Char :=
  ((cs.dropWhile isJsWhitespace).reverse.dropWhile isJsWhitespace).reverse

def jsTrim (s : String) : String := String.mk (jsTrimChars s.data)

/-- The base58 character class of DIGEST_REGEX, route.ts line 8. -/
def isBase58Char (c : Char) : Bool :=
  (decide ('1' ≤ c) && decide (c ≤ '9')) || (decide ('A' ≤ c) && decide (c ≤ 'H')) ||
  (decide ('J' ≤ c) && decide (c ≤ 'N')) || (decide ('P' ≤ c) && decide (c ≤ 'Z')) ||
  (decide ('a' ≤ c) && decide (c ≤ 'k')) || (decide ('m' ≤ c) && decide (c ≤ 'z'))

def isHexDigitChar (c : Char) : Bool :=
  (decide ('0' ≤ c) && decide (c ≤ '9')) || (decide ('a' ≤ c) && decide (c ≤ 'f')) ||
  (decide ('A' ≤ c) && decide (c ≤ 'F'))

/-- DIGEST_REGEX, route.ts line 8: 20 to 80 base58 characters, or 0x
followed by 40 to 128 hex digits. -/
def digestRegexTest (s : String) : Bool :=
  let cs := s.data
  (decide (20 ≤ cs.length) && decide (cs.length ≤ 80) && cs.all isBase58Char) ||
  (match cs with
   | '0' :: 'x' :: rest =>
     decide (40 ≤ rest.length) && decide (rest.length ≤ 128) && rest.all isHexDigitChar
   | _ => false)

/-- requestSchema digest validation, route.ts lines 10-19: trim, length
between 20 and 80, then the regex refinement. -/
def validateDigest (raw : String) : Option String :=
  let s := jsTrim raw
  if 20 ≤ s.data.length && s.data.length ≤ 80 && digestRegexTest s then some s else none

inductive RouteOutcome where
  | badRequest (message : String)
  | rateLimited
  | fetched (result : FetchSuccess)
  deriving Repr, DecidableEq

/-- The POST handler of route.ts lines 37-83 outside fixture mode:
digest validation first (a schema failure is caught and returned as a
400 before anything else runs), then the rate-limit check, then the
resilient fetch.  The second component is the list of providers
attempted on the network. -/
def txRoutePost (oracle : RpcOracle) (providers : List RpcProvider) (health : HealthMap)
    (now ttl capacity : Nat) (cache : TxCache)
    (rateMax rateWindow : Nat) (rateRecord : Option ThrottleRecord)
    (rawDigest optionsJson : String) : RouteOutcome × List String :=
  match validateDigest rawDigest with
  | none => (.badRequest "Digest must be base58 or hex.", [])
  | some digest =>
    let (verdict, _) := checkRateLimit rateMax rateWindow now rateRecord
    if verdict.allowed = false then (.rateLimited, [])
    else
      match getTransactionBlock oracle providers health now ttl capacity cache digest optionsJson with
      | (_, _, attempts, .ok r) => (.fetched r, attempts)
      | (_, _, attempts, .error e) => (.badRequest e, attempts)

/- ===== Schema-aware decoder, src/lib/abi.ts ===== -/

/-- Does the character list start with the given pattern. -/
def startsWithSeq (pat cs : List Char) : Bool :=
  match pat, cs with
  | [], _ => true
  | _ :: _, [] => false
  | p :: ps, c :: rest => if p = c then startsWithSeq ps rest else false

/-- String.prototype.split with a one-character separator. -/
def splitOnCharAux (sep : Char) : List Char → List Char → List (List Char)
  | [], current => [current.reverse]
  | c :: rest, current =>
    if c = sep then current.reverse :: splitOnCharAux sep rest []
    else splitOnCharAux sep rest (c :: current)

def splitOnChar (sep : Char) (cs : List Char) : List (List Char) :=
  splitOnCharAux sep cs []

/-- String.prototype.split with the two-character separator of the
fully qualified type names. -/
def splitOnColonColonAux : List Char → List Char → List (List Char)
  | [], current => [current.reverse]
  | ':' :: ':' :: rest, current => current.reverse :: splitOnColonColonAux rest []
  | c :: rest, current => splitOnColonColonAux rest (c :: current)

def splitOnColonColon (cs : List Char) : List (List Char) :=
  splitOnColonColonAux cs []

/-- The open-signature body of abi.ts lines 20-25, a loose record with a
numeric tag (TYPE_UNKNOWN 0, ADDRESS 1, BOOL 2, U8 3, U16 4, U32 5,
U64 6, U128 7, U256 8, VECTOR 9, DATATYPE 10, TYPE_PARAMETER 11).  A
missing tag behaves exactly like TYPE_UNKNOWN in every consumer, so it
is collapsed to 0; a missing instantiation list behaves like the empty
list in every consumer and is collapsed to []. -/
inductive OpenSignatureBody where
  | mk (tag : Nat) (typeName : Option String) (inst : List OpenSignatureBody)
      (typeParameter : Option Nat)
  deriving Repr

def OpenSignatureBody.tag : OpenSignatureBody → Nat
  | .mk t _ _ _ => t

def OpenSignatureBody.typeName : OpenSignatureBody → Option String
  | .mk _ n _ _ => n

def OpenSignatureBody.inst : OpenSignatureBody → List OpenSignatureBody
  | .mk _ _ i _ => i

def OpenSignatureBody.typeParameter : OpenSignatureBody → Option Nat
  | .mk _ _ _ p => p

/-- parseTypeName, abi.ts lines 78-83: strip generics at the first <,
split on ::, and require three nonempty leading components. -/
def parseTypeName (typeName : String) : Option (String × String × String) :=
  let base := (splitOnChar '<' typeName.data).headD []
  match splitOnColonColon base with
  | pkg :: moduleName :: name :: _ =>
    if pkg = [] || moduleName = [] || name = [] then none
    else some (String.mk pkg, String.mk moduleName, String.mk name)
  | _ => none

/-- splitParams, abi.ts lines 85-101: split on top-level commas,
tracking angle-bracket depth, keeping only nonempty trimmed pieces. -/
def splitParamsAux : List Char → Nat → List Char → List (List Char)
  | [], _, current =>
    let piece := jsTrimChars current.reverse
    if piece = [] then [] else [piece]
  | c :: rest, depth, current =>
    let depth1 := if c = '<' then depth + 1 else depth
    let depth2 := if c = '>' then depth1 - 1 else depth1
    if c = ',' && depth = 0 then
      let piece := jsTrimChars current.reverse
      if piece = [] then splitParamsAux rest depth2 []
      else piece :: splitParamsAux rest depth2 []
    else
      splitParamsAux rest depth2 (c :: current)

def splitParams (paramStr : List Char) : List (List Char) :=
  splitParamsAux paramStr 0 []

/-- parseTypeTag, abi.ts lines 103-149, with a fuel bound on the string
recursion; every recursive call is on a strictly shorter string, so any
fuel of at least the tag length plus one reproduces the source. -/
def parseTypeTag : Nat → String → Option OpenSignatureBody
  | 0, _ => none
  | fuel + 1, typeTag =>
    let trimmed := jsTrimChars typeTag.data
    if startsWithSeq ['&', 'm', 'u', 't', ' '] trimmed then
      parseTypeTag fuel (String.mk (trimmed.drop 5))
    else if startsWithSeq ['&'] trimmed then
      parseTypeTag fuel (String.mk (trimmed.drop 1))
    else if startsWithSeq ['v', 'e', 'c', 't', 'o', 'r', '<'] trimmed &&
        trimmed.getLast? = some '>' then
      let inner := (trimmed.drop 7).dropLast
      match parseTypeTag fuel (String.mk inner) with
      | none => none
      | some innerBody => some (.mk 9 none [innerBody] none)
    else
      let s := String.mk trimmed
      if s = "address" then some (.mk 1 none [] none)
      else if s = "bool" then some (.mk 2 none [] none)
      else if s = "u8" then some (.mk 3 none [] none)
      else if s = "u16" then some (.mk 4 none [] none)
      else if s = "u32" then some (.mk 5 none [] none)
      else if s = "u64" then some (.mk 6 none [] none)
      else if s = "u128" then some (.mk 7 none [] none)
      else if s = "u256" then some (.mk 8 none [] none)
      else
        match splitOnChar '<' trimmed with
        | [] => none
        | base :: genericsRest =>
          if (splitOnColonColon base).length ≥ 2 then
            let generics := genericsRest.headD []
            if generics ≠ [] && trimmed.getLast? = some '>' then
              let params := splitParams generics.dropLast
              some (.mk 10 (some (String.mk base))
                (params.filterMap (fun p => parseTypeTag fuel (String.mk p))) none)
            else some (.mk 10 (some (String.mk base)) [] none)
          else none

mutual

/-- formatOpenSignatureBody, abi.ts lines 151-180 (the abi.ts variant,
which prints a datatype as its bare type name). -/
def formatOpenSignatureBody (body : OpenSignatureBody) : String :=
  match body with
  | .mk t name inst tp =>
    if t = 1 then "address"
    else if t = 2 then "bool"
    else if t = 3 then "u8"
    else if t = 4 then "u16"
    else if t = 5 then "u32"
    else if t = 6 then "u64"
    else if t = 7 then "u128"
    else if t = 8 then "u256"
    else if t = 9 then "vector<" ++ formatVectorInner inst ++ ">"
    else if t = 10 then name.getD "datatype"
    else if t = 11 then "T" ++ toString (tp.getD 0)
    else "unknown"

/-- The inner ? format(inner) : unknown step of the vector case. -/
def formatVectorInner : List OpenSignatureBody → String
  | [] => "unknown"
  | inner :: _ => formatOpenSignatureBody inner

end

mutual

/-- resolveTypeParameters, abi.ts lines 182-208: replace a
type-parameter node by the matching type argument (or leave the node
when the index is out of range), rebuild a vector from its resolved
first element, and resolve each type argument of a datatype. -/
def resolveTypeParameters (body : OpenSignatureBody) (typeArgs : List OpenSignatureBody) :
    OpenSignatureBody :=
  match body with
  | .mk t name inst tp =>
    if t = 11 then (typeArgs[tp.getD 0]?).getD body
    else if t = 9 then
      match inst with
      | [] => body
      | inner :: _ => .mk t name [resolveTypeParameters inner typeArgs] tp
    else if t = 10 then .mk t name (resolveTypeParametersList inst typeArgs) tp
    else body

def resolveTypeParametersList (l : List OpenSignatureBody) (typeArgs : List OpenSignatureBody) :
    List OpenSignatureBody :=
  match l with
  | [] => []
  | b :: bs => resolveTypeParameters b typeArgs :: resolveTypeParametersList bs typeArgs

end

/-- The recursive binary layouts produced by the bcs library calls in
abi.ts: fixed-width integers, bool, fixed byte strings (address is
bytes 32), length-prefixed vectors, and ordered field structs. -/
inductive BcsLayout where
  | u8
  | u16
  | u32
  | u64
  | u128
  | u256
  | bool
  | fixedBytes (n : Nat)
  | vector (inner : BcsLayout)
  | struct (name : String) (fields : List (String × BcsLayout))
  deriving Repr

/-- getPrimitiveBcsType, abi.ts lines 210-231. -/
def getPrimitiveBcsType (body : OpenSignatureBody) : Option BcsLayout :=
  if body.tag = 3 then some .u8
  else if body.tag = 4 then some .u16
  else if body.tag = 5 then some .u32
  else if body.tag = 6 then some .u64
  else if body.tag = 7 then some .u128
  else if body.tag = 8 then some .u256
  else if body.tag = 2 then some .bool
  else if body.tag = 1 then some (.fixedBytes 32)
  else none

/-- A struct or enum field descriptor, abi.ts lines 35-38. -/
structure FieldDescriptor where
  name : Option String
  fieldType : Option OpenSignatureBody

/-- A datatype descriptor, abi.ts lines 40-47 (kind 1 marks a plain
struct; fields defaults to empty). -/
structure DatatypeDescriptor where
  name : Option String
  kind : Option Nat
  fields : List FieldDescriptor

/-- The metadata service behind getDatatype, keyed by the parsed
package, module and datatype names; none models both a not-found reply
and an unconfigured client.  The indefinite-lifetime cache in front of
it is semantically transparent and is not modelled. -/
abbrev DatatypeOracle := String → String → String → Option DatatypeDescriptor

/-- getDatatypeDescriptor, abi.ts lines 272-291: an unparsable type name
short-circuits to none before any lookup. -/
def getDatatypeDescriptor (oracle : DatatypeOracle) (typeName : String) :
    Option DatatypeDescriptor :=
  match parseTypeName typeName with
  | none => none
  | some (pkg, moduleName, name) => oracle pkg moduleName name

/-- buildBcsType, abi.ts lines 293-331, with a fuel bound standing for
the finite recursion depth of any terminating source run: resolve the
body, map primitives to their fixed layouts, build vectors from their
first instantiation argument, and build a struct layout only when the
descriptor exists, its kind is 1, and every named field builds; any
failing sub-part makes the whole build return none.  The
struct-schema memoization cache is semantically transparent and is not
modelled. -/
def buildBcsType (oracle : DatatypeOracle) : Nat → OpenSignatureBody → List OpenSignatureBody →
    Option BcsLayout
  | 0, _, _ => none
  | fuel + 1, body, typeArgs =>
    let resolved := resolveTypeParameters body typeArgs
    match getPrimitiveBcsType resolved with
    | some primitive => some primitive
    | none =>
      if resolved.tag = 9 then
        match resolved.inst with
        | [] => none
        | inner :: _ =>
          match buildBcsType oracle fuel inner typeArgs with
          | none => none
          | some innerType => some (.vector innerType)
      else if resolved.tag = 10 && resolved.typeName.isSome then
        match getDatatypeDescriptor oracle (resolved.typeName.getD "") with
        | none => none
        | some datatype =>
          if datatype.kind ≠ some 1 then none
          else
            let fieldLayouts := datatype.fields.map (fun field =>
              match field.name, field.fieldType with
              | some fname, some ftype =>
                (buildBcsType oracle fuel ftype typeArgs).map (fun l => (fname, l))
              | _, _ => none)
            if fieldLayouts.all Option.isSome then
              some (.struct (datatype.name.getD "Struct") (fieldLayouts.filterMap id))
            else none
      else none

/- ===== The bcs library runtime used by abi.ts ===== -/

/-- A decoded BCS value as the bcs library returns it: integers
(numbers or bigints, both rendered in decimal), booleans, byte strings,
arrays, and plain objects. -/
inductive BcsValue where
  | natVal (n : Nat)
  | boolVal (b : Bool)
  | bytes (bs : List Nat)
  | arr (vs : List BcsValue)
  | obj (fields : List (String × BcsValue))
  deriving Repr

def hexDigitOf (n : Nat) : Char :=
  if n < 10 then Char.ofNat (48 + n) else Char.ofNat (87 + n)

def byteToHex (b : Nat) : List Char := [hexDigitOf (b / 16 % 16), hexDigitOf (b % 16)]

/-- toHex of the bcs library: lowercase, two digits per byte. -/
def toHexStr (bs : List Nat) : String := String.mk ((bs.map byteToHex).flatten)

mutual

/-- formatDecodedValue, abi.ts lines 233-247 (the embedding has no
null or undefined values, and u64-and-wider integers parse to decimal
strings, so every numeric case renders as its decimal digits). -/
def formatDecodedValue : BcsValue → String
  | .natVal n => toString n
  | .boolVal b => if b then "true" else "false"
  | .bytes bs => "0x" ++ toHexStr bs
  | .arr vs => "[" ++ formatValueList vs ++ "]"
  | .obj fs => "\x7b " ++ formatValueFields fs ++ " \x7d"

def formatValueList : List BcsValue → String
  | [] => ""
  | [v] => formatDecodedValue v
  | v :: rest => formatDecodedValue v ++ ", " ++ formatValueList rest

def formatValueFields : List (String × BcsValue) → String
  | [] => ""
  | [(key, v)] => key ++ ": " ++ formatDecodedValue v
  | (key, v) :: rest => key ++ ": " ++ formatDecodedValue v ++ ", " ++ formatValueFields rest

end

def bcsEof : String := "bcs: unexpected end of input"

def bcsFuelErr : String := "bcs: recursion limit"

def bcsBoolErr : String := "bcs: invalid bool byte"

/-- Read k bytes as a little-endian unsigned integer. -/
def readBytesLE : Nat → List Nat → Option (Nat × List Nat)
  | 0, bs => some (0, bs)
  | _ + 1, [] => none
  | k + 1, b :: bs =>
    match readBytesLE k bs with
    | none => none
    | some (v, rest) => some (b + v * 256, rest)

/-- Read k raw bytes. -/
def readFixedBytes : Nat → List Nat → Option (List Nat × List Nat)
  | 0, bs => some ([], bs)
  | _ + 1, [] => none
  | k + 1, b :: bs =>
    match readFixedBytes k bs with
    | none => none
    | some (v, rest) => some (b :: v, rest)

/-- Read a ULEB128 length prefix. -/
def readUleb : List Nat → Nat → Nat → Option (Nat × List Nat)
  | [], _, _ => none
  | b :: rest, shift, acc =>
    let acc2 := acc + (b % 128) * 2 ^ shift
    if b < 128 then some (acc2, rest) else readUleb rest (shift + 7) acc2

/-- Parse count repetitions with the given element parser. -/
def parseRepeat (step : List Nat → Except String (BcsValue × List Nat)) :
    Nat → List Nat → Except String (List BcsValue × List Nat)
  | 0, bs => .ok ([], bs)
  | n + 1, bs =>
    match step bs with
    | .error e => .error e
    | .ok (v, rest) =>
      match parseRepeat step n rest with
      | .error e => .error e
      | .ok (vs, rest2) => .ok (v :: vs, rest2)

/-- Parse the ordered fields of a struct layout. -/
def parseFieldList (step : BcsLayout → List Nat → Except String (BcsValue × List Nat)) :
    List (String × BcsLayout) → List Nat → Except String (List (String × BcsValue) × List Nat)
  | [], bs => .ok ([], bs)
  | (fname, flayout) :: rest, bs =>
    match step flayout bs with
    | .error e => .error e
    | .ok (v, bs2) =>
      match parseFieldList step rest bs2 with
      | .error e => .error e
      | .ok (vs, bs3) => .ok ((fname, v) :: vs, bs3)

/-- The parse method of the bcs layouts: reading past the end of the
input throws, which models the RangeError a DataView read raises in
the library.  The fuel bound stands for the finite recursion depth of
any terminating run. -/
def parseValue : Nat → BcsLayout → List Nat → Except String (BcsValue × List Nat)
  | 0, _, _ => .error bcsFuelErr
  | fuel + 1, layout, bs =>
    match layout with
    | .u8 =>
      match readBytesLE 1 bs with
      | none => .error bcsEof
      | some (v, r) => .ok (.natVal v, r)
    | .u16 =>
      match readBytesLE 2 bs with
      | none => .error bcsEof
      | some (v, r) => .ok (.natVal v, r)
    | .u32 =>
      match readBytesLE 4 bs with
      | none => .error bcsEof
      | some (v, r) => .ok (.natVal v, r)
    | .u64 =>
      match readBytesLE 8 bs with
      | none => .error bcsEof
      | some (v, r) => .ok (.natVal v, r)
    | .u128 =>
      match readBytesLE 16 bs with
      | none => .error bcsEof
      | some (v, r) => .ok (.natVal v, r)
    | .u256 =>
      match readBytesLE 32 bs with
      | none => .error bcsEof
      | some (v, r) => .ok (.natVal v, r)
    | .bool =>
      match bs with
      | [] => .error bcsEof
      | b :: r =>
        if b = 1 then .ok (.boolVal true, r)
        else if b = 0 then .ok (.boolVal false, r)
        else .error bcsBoolErr
    | .fixedBytes n =>
      match readFixedBytes n bs with
      | none => .error bcsEof
      | some (v, r) => .ok (.bytes v, r)
    | .vector inner =>
      match readUleb bs 0 0 with
      | none => .error bcsEof
      | some (n, rest) =>
        match parseRepeat (parseValue fuel inner) n rest with
        | .error e => .error e
        | .ok (vs, rest2) => .ok (.arr vs, rest2)
    | .struct _ fields =>
      match parseFieldList (parseValue fuel) fields bs with
      | .error e => .error e
      | .ok (fvs, rest) => .ok (.obj fvs, rest)

/-- parse without the leftover bytes, as the library returns it. -/
def bcsParse (fuel : Nat) (layout : BcsLayout) (bs : List Nat) : Except String BcsValue :=
  match parseValue fuel layout bs with
  | .error e => .error e
  | .ok (v, _) => .ok v

/- ===== Byte-string conversion, abi.ts lines 70-76 ===== -/

def hexCharVal (c : Char) : Option Nat :=
  if '0' ≤ c && c ≤ '9' then some (c.toNat - 48)
  else if 'a' ≤ c && c ≤ 'f' then some (c.toNat - 87)
  else if 'A' ≤ c && c ≤ 'F' then some (c.toNat - 55)
  else none

def fromHexPairs : List Char → Option (List Nat)
  | [] => some []
  | [_] => none
  | c1 :: c2 :: rest =>
    match hexCharVal c1, hexCharVal c2, fromHexPairs rest with
    | some v1, some v2, some vs => some ((v1 * 16 + v2) :: vs)
    | _, _, _ => none

/-- fromHex of the bcs library: strip an optional 0x, left-pad odd
length, then parse hex pairs; an invalid digit throws. -/
def fromHexBytes (s : String) : Except String (List Nat) :=
  let normalized := if startsWithSeq ['0', 'x'] s.data then s.data.drop 2 else s.data
  let padded := if normalized.length % 2 = 0 then normalized else '0' :: normalized
  match fromHexPairs padded with
  | some bs => .ok bs
  | none => .error "Invalid hex string"

def b64CharVal (c : Char) : Option Nat :=
  if 'A' ≤ c && c ≤ 'Z' then some (c.toNat - 65)
  else if 'a' ≤ c && c ≤ 'z' then some (c.toNat - 71)
  else if '0' ≤ c && c ≤ '9' then some (c.toNat + 4)
  else if c = '+' then some 62
  else if c = '/' then some 63
  else none

def b64Groups : List Nat → Option (List Nat)
  | [] => some []
  | [_] => none
  | [a, b] => some [(a * 4 + b / 16) % 256]
  | [a, b, c] => some [(a * 4 + b / 16) % 256, (b % 16) * 16 + c / 4]
  | a :: b :: c :: d :: rest =>
    match b64Groups rest with
    | none => none
    | some bs => some ((a * 4 + b / 16) % 256 :: ((b % 16) * 16 + c / 4) :: ((c % 4) * 64 + d) :: bs)

/-- fromBase64 of the bcs library: standard alphabet, padding ignored,
an invalid character throws. -/
def fromBase64Bytes (s : String) : Except String (List Nat) :=
  let chars := s.data.filter (fun c => c ≠ '=')
  let vals := chars.map b64CharVal
  if vals.all Option.isSome then
    match b64Groups (vals.filterMap id) with
    | some bs => .ok bs
    | none => .error "Invalid base64 string"
  else .error "Invalid base64 string"

/-- A byte-string value as it appears in transaction inputs: either an
encoded string or a raw byte array. -/
inductive BytesValue where
  | strBytes (s : String)
  | rawBytes (bs : List Nat)
  deriving Repr

/-- toBytes, abi.ts lines 70-76: null and the empty string are falsy
and yield null, a byte array passes through, a 0x string is hex
decoded, any other string is base64 decoded; a malformed encoding
throws out of the library. -/
def toBytes : Option BytesValue → Except String (Option (List Nat))
  | none => .ok none
  | some (.rawBytes bs) => .ok (some bs)
  | some (.strBytes s) =>
    if s = "" then .ok none
    else if startsWithSeq ['0', 'x'] s.data then (fromHexBytes s).map some
    else (fromBase64Bytes s).map some

/- ===== Argument decoding, abi.ts lines 333-433 ===== -/

/-- parseTypeTag at its guaranteed-sufficient fuel: every recursive
call shortens the string, so length-plus-one fuel reproduces the
unbounded source recursion on every input. -/
def parseTypeTagFull (tag : String) : Option OpenSignatureBody :=
  parseTypeTag (tag.data.length + 1) tag

/-- decodeArgValue, abi.ts lines 333-365: resolve the parameter body,
parse primitives directly (rendering an address as hex), parse vectors
and datatypes through buildBcsType, and return none whenever a layout
is unavailable; parse failures throw. -/
def decodeArgValue (oracle : DatatypeOracle) (fuel : Nat) (body : OpenSignatureBody)
    (bytes : List Nat) (typeArgs : List OpenSignatureBody) : Except String (Option String) :=
  let resolved := resolveTypeParameters body typeArgs
  match getPrimitiveBcsType resolved with
  | some primitive =>
    match bcsParse fuel primitive bytes with
    | .error e => .error e
    | .ok v =>
      if resolved.tag = 1 then
        match v with
        | .bytes bs => .ok (some ("0x" ++ toHexStr bs))
        | _ => .ok (some (formatDecodedValue v))
      else .ok (some (formatDecodedValue v))
  | none =>
    if resolved.tag = 9 then
      match resolved.inst with
      | [] => .ok none
      | inner :: _ =>
        match buildBcsType oracle fuel inner typeArgs with
        | none => .ok none
        | some innerType =>
          match bcsParse fuel (.vector innerType) bytes with
          | .error e => .error e
          | .ok v => .ok (some (formatDecodedValue v))
    else if resolved.tag = 10 then
      match buildBcsType oracle fuel resolved typeArgs with
      | none => .ok none
      | some structType =>
        match bcsParse fuel structType bytes with
        | .error e => .error e
        | .ok v => .ok (some (formatDecodedValue v))
    else .ok none

/-- The object slot of a transaction input, carrying whichever object id
its variant exposes. -/
structure ObjectArgRecord where
  immOrOwnedId : Option String
  sharedId : Option String
  receivingId : Option String
  objectId : Option String
  deriving Repr, DecidableEq

/-- The pure slot of a transaction input: either the encoded string
itself or an object with optional bytes and value fields. -/
inductive PureField where
  | strVal (s : String)
  | objVal (bytesField : Option BytesValue) (valueField : Option BytesValue)
  deriving Repr

/-- One entry of the transaction inputs array, as either decoder reads
it: an optional Object slot, an optional Pure slot and an optional
lowercase pure slot. -/
structure CallInput where
  object : Option ObjectArgRecord
  pureCap : Option PureField
  pureLow : Option PureField
  deriving Repr

/-- One command argument as the decoders receive it. -/
inductive CallArgument where
  | str (s : String)
  | inputCap (n : Nat)
  | inputLow (n : Nat)
  | resultRef (n : Nat)
  | nestedResult (a b : Nat)
  | nullArg
  deriving Repr, DecidableEq

/-- getInputIndex, abi.ts lines 367-376.  The string branch tests a
regex written with doubled backslashes, which only matches
backslash-escaped text and whose capture group keeps a literal
backslash, so Number on the capture is always NaN; indexing the inputs
array with NaN yields undefined and the argument is skipped exactly as
when the index is null, so the embedding returns none for every
string.  Result and nested-result references have neither an Input nor
an input field and also yield none. -/
def getInputIndex : CallArgument → Option Nat
  | .inputCap n => some n
  | .inputLow n => some n
  | _ => none

/-- The object-id chain of decodeMoveCallArgsWithAbi lines 405-411. -/
def objectIdOf (object : Option ObjectArgRecord) : Option String :=
  match object with
  | none => none
  | some o => o.immOrOwnedId <|> o.sharedId <|> o.receivingId <|> o.objectId

/-- The pure-bytes extraction of decodeMoveCallArgsWithAbi lines
424-425: input?.Pure ?? input?.pure, then pure?.bytes ?? pure handed
to toBytes.  When pure is an object without a bytes field the fallback
passes the object itself to toBytes, which returns null for any value
that is neither a string nor a byte array. -/
def abiPureBytes (input : Option CallInput) : Except String (Option (List Nat)) :=
  let pureField :=
    match input with
    | none => none
    | some inp => inp.pureCap <|> inp.pureLow
  match pureField with
  | none => .ok none
  | some (.strVal s) => toBytes (some (.strBytes s))
  | some (.objVal bytesField _) =>
    match bytesField with
    | some bv => toBytes (some bv)
    | none => .ok none

/-- One decoded argument entry, abi.ts lines 49-53.  The source record
carries no confidence field. -/
structure DecodedArg where
  index : Nat
  value : String
  type : String
  deriving Repr, DecidableEq

/-- One function parameter, abi.ts lines 27-29. -/
structure OpenSignature where
  body : Option OpenSignatureBody
  deriving Repr

/-- A function descriptor, abi.ts lines 31-33. -/
structure FunctionDescriptor where
  parameters : Option (List OpenSignature)

/-- The metadata service behind getFunction, keyed by package, module
and function name; none models a not-found reply, an unconfigured
client, and a cache miss that cannot be served.  The
indefinite-lifetime cache in front of it is semantically transparent
and is not modelled. -/
abbrev FunctionOracle := String → String → String → Option FunctionDescriptor

/-- The argument record decodeMoveCallArgsWithAbi receives,
abi.ts lines 378-386. -/
structure MoveCallAbiRequest where
  packageId : String
  moduleName : String
  functionName : String
  typeArguments : List String
  arguments : List CallArgument
  inputs : List CallInput
  objectTypes : List (String × String)

/-- The argument loop of decodeMoveCallArgsWithAbi, abi.ts lines
400-430: an argument without a usable input index, without a parameter
body, without bytes, or without a decodable value is skipped with no
output entry; an argument whose input exposes an object id is labelled
with the id and its mapped type before byte decoding is ever
considered; decode exceptions propagate. -/
def decodeArgsLoop (oracle : DatatypeOracle) (fuel : Nat) (params : List OpenSignature)
    (inputs : List CallInput) (objectTypes : List (String × String))
    (typeArgs : List OpenSignatureBody) : Nat → List CallArgument →
    Except String (List DecodedArg)
  | _, [] => .ok []
  | i, arg :: rest =>
    let skip := decodeArgsLoop oracle fuel params inputs objectTypes typeArgs (i + 1) rest
    match getInputIndex arg with
    | none => skip
    | some inputIndex =>
      let input := inputs[inputIndex]?
      let objectId := objectIdOf (input.bind (fun inp => inp.object))
      match (params[i]?).bind (fun p => p.body) with
      | none => skip
      | some paramBody =>
        let typeLabel := paramBody.typeName.getD (formatOpenSignatureBody paramBody)
        match objectId with
        | some oid =>
          let value :=
            match objectTypes.lookup oid with
            | some objectType => oid ++ " (" ++ objectType ++ ")"
            | none => oid
          match skip with
          | .error e => .error e
          | .ok ds => .ok (⟨i, value, typeLabel⟩ :: ds)
        | none =>
          match abiPureBytes input with
          | .error e => .error e
          | .ok none => skip
          | .ok (some bytes) =>
            match decodeArgValue oracle fuel paramBody bytes typeArgs with
            | .error e => .error e
            | .ok none => skip
            | .ok (some value) =>
              match skip with
              | .error e => .error e
              | .ok ds => .ok (⟨i, value, typeLabel⟩ :: ds)

/-- decodeMoveCallArgsWithAbi, abi.ts lines 378-433: a missing function
descriptor or missing parameter list yields the empty list, type
arguments parse through parseTypeTag with failures dropped, then the
argument loop runs. -/
def decodeMoveCallArgsWithAbi (fnOracle : FunctionOracle) (dtOracle : DatatypeOracle)
    (fuel : Nat) (req : MoveCallAbiRequest) : Except String (List DecodedArg) :=
  match fnOracle req.packageId req.moduleName req.functionName with
  | none => .ok []
  | some fn =>
    match fn.parameters with
    | none => .ok []
    | some params =>
      let typeArgs := req.typeArguments.filterMap parseTypeTagFull
      decodeArgsLoop dtOracle fuel params req.inputs req.objectTypes typeArgs 0 req.arguments

/- ===== The offline decoding path of the page component ===== -/

/-- stripRef of the offline path: remove a leading ampersand-mut or
ampersand only when followed by whitespace, then trim. -/
def stripRefChars (cs : List Char) : List Char :=
  let step1 :=
    match cs with
    | '&' :: 'm' :: 'u' :: 't' :: c :: rest =>
      if isJsWhitespace c then (c :: rest).dropWhile isJsWhitespace else cs
    | _ => cs
  match step1 with
  | '&' :: c :: rest =>
    if isJsWhitespace c then (c :: rest).dropWhile isJsWhitespace else step1
  | _ => step1

def stripRef (t : String) : String := String.mk (jsTrimChars (stripRefChars t.data))

/-- parseParamTypes of the offline path: the parameter list between the
first parenthesis pair of the rendered signature, split on top-level
commas, each piece stripped of references. -/
def parseParamTypes (signature : Option String) : List String :=
  match signature with
  | none => []
  | some sig =>
    let cs := sig.data
    match cs.findIdx? (fun c => c = '('), cs.findIdx? (fun c => c = ')') with
    | some start, some stop =>
      if stop ≤ start + 1 then []
      else
        let paramStr := jsTrimChars ((cs.drop (start + 1)).take (stop - start - 1))
        if paramStr = [] then []
        else (splitParams paramStr).map (fun p => stripRef (String.mk p))
    | _, _ => []

/-- getPrimitiveBcs of the offline path, on rendered type names. -/
def getPrimitiveBcs (ty : String) : Option BcsLayout :=
  if ty = "u8" then some .u8
  else if ty = "u16" then some .u16
  else if ty = "u32" then some .u32
  else if ty = "u64" then some .u64
  else if ty = "u128" then some .u128
  else if ty = "u256" then some .u256
  else if ty = "bool" then some .bool
  else if ty = "address" then some (.fixedBytes 32)
  else none

/-- How String coerces a decoded primitive element in the offline
join and String(value) renderings.  Arrays and objects cannot occur
for primitive element layouts and render as an empty placeholder. -/
def jsToString : BcsValue → String
  | .natVal n => toString n
  | .boolVal b => if b then "true" else "false"
  | .bytes bs => String.intercalate "," (bs.map toString)
  | .arr _ => ""
  | .obj _ => ""

def jsJoinComma (vs : List BcsValue) : String :=
  String.intercalate ", " (vs.map jsToString)

/-- decodeBcsValue of the offline path: a case-insensitive
vector-of-primitive pattern decodes through a vector layout, a bare
primitive decodes directly with address rendered as hex, anything else
returns null. -/
def decodeBcsValue (fuel : Nat) (ty : String) (bytes : List Nat) :
    Except String (Option String) :=
  let normalized := stripRef ty
  let cs := normalized.data
  if 9 ≤ cs.length && (cs.take 7).map Char.toLower = ['v', 'e', 'c', 't', 'o', 'r', '<'] &&
      cs.getLast? = some '>' then
    let inner := stripRef (String.mk ((cs.drop 7).dropLast))
    match getPrimitiveBcs inner with
    | none => .ok none
    | some innerBcs =>
      match bcsParse fuel (.vector innerBcs) bytes with
      | .error e => .error e
      | .ok (.arr vs) => .ok (some ("[" ++ jsJoinComma vs ++ "]"))
      | .ok v => .ok (some ("[" ++ jsToString v ++ "]"))
  else
    match getPrimitiveBcs normalized with
    | none => .ok none
    | some primitive =>
      match bcsParse fuel primitive bytes with
      | .error e => .error e
      | .ok v =>
        if normalized = "address" then
          match v with
          | .bytes bs => .ok (some ("0x" ++ toHexStr bs))
          | _ => .ok (some (jsToString v))
        else .ok (some (jsToString v))

/-- Truthiness of a maybe-bytes field: an empty string is falsy, a byte
array object is always truthy. -/
def truthyBytes : Option BytesValue → Bool
  | none => false
  | some (.strBytes s) => s ≠ ""
  | some (.rawBytes _) => true

/-- getPureBytes of the offline path: only the Pure or pure slot is
consulted, never the Object slot; a string decodes directly, otherwise
the truthy bytes field, then the truthy value field, then null. -/
def getPureBytes (input : Option CallInput) : Except String (Option (List Nat)) :=
  match input with
  | none => .ok none
  | some inp =>
    match inp.pureCap <|> inp.pureLow with
    | none => .ok none
    | some (.strVal s) => toBytes (some (.strBytes s))
    | some (.objVal bytesField valueField) =>
      if truthyBytes bytesField then toBytes bytesField
      else if truthyBytes valueField then toBytes valueField
      else .ok none

/-- The map body of decodeMoveCallArgs of the offline path: arguments
without a usable input index, without pure bytes, or without a decoded
value are dropped; survivors render as a type-equals-value string. -/
def decodeArgsOfflineLoop (fuel : Nat) (types : List String) (inputs : List CallInput) :
    Nat → List CallArgument → Except String (List String)
  | _, [] => .ok []
  | index, arg :: rest =>
    let skip := decodeArgsOfflineLoop fuel types inputs (index + 1) rest
    match getInputIndex arg with
    | none => skip
    | some inputIndex =>
      match getPureBytes inputs[inputIndex]? with
      | .error e => .error e
      | .ok none => skip
      | .ok (some bytes) =>
        match decodeBcsValue fuel ((types[index]?).getD "") bytes with
        | .error e => .error e
        | .ok none => skip
        | .ok (some decoded) =>
          match skip with
          | .error e => .error e
          | .ok ds => .ok (((types[index]?).getD "undefined" ++ " = " ++ decoded) :: ds)

/-- decodeMoveCallArgs of the offline path: no signature or no parsed
parameter types yields the empty list, otherwise the per-argument map
runs over the pure inputs only. -/
def decodeMoveCallArgs (fuel : Nat) (signature : Option String) (args : List CallArgument)
    (inputs : List CallInput) : Except String (List String) :=
  let types := parseParamTypes signature
  if types.length = 0 then .ok []
  else decodeArgsOfflineLoop fuel types inputs 0 args

/- ===== Helper lemmas: the stable sort ===== -/

theorem lexLe_total : ∀ a b : List Nat, lexLe a b = true ∨ lexLe b a = true := by
  intro a
  induction a with
  | nil => intro b; left; rfl
  | cons x xs ih =>
    intro b
    cases b with
    | nil => right; rfl
    | cons y ys =>
      by_cases hxy : x < y
      · left; simp [lexLe, hxy]
      · by_cases hyx : y < x
        · right; simp [lexLe, hyx]
        · rcases ih ys with h | h
          · left; simp [lexLe, hxy, hyx, h]
          · right; simp [lexLe, hxy, hyx, h]

theorem lexLe_trans :
    ∀ a b c : List Nat, lexLe a b = true → lexLe b c = true → lexLe a c = true := by
  intro a
  induction a with
  | nil => intro b c _ _; rfl
  | cons x xs ih =>
    intro b c hab hbc
    cases b with
    | nil => simp [lexLe] at hab
    | cons y ys =>
      cases c with
      | nil => simp [lexLe] at hbc
      | cons z zs =>
        simp only [lexLe] at hab hbc ⊢
        by_cases hxy : x < y
        · by_cases hyz : y < z
          · have : x < z := Nat.lt_trans hxy hyz
            simp [this]
          · by_cases hzy : z < y
            · simp [hyz, hzy] at hbc
            · have hyzeq : y = z := Nat.le_antisymm (Nat.le_of_not_lt hzy) (Nat.le_of_not_lt hyz)
              subst hyzeq
              simp [hxy]
        · by_cases hyx : y < x
          · simp [hxy, hyx] at hab
          · have hxyeq : x = y := Nat.le_antisymm (Nat.le_of_not_lt hyx) (Nat.le_of_not_lt hxy)
            subst hxyeq
            by_cases hyz : x < z
            · simp [hyz]
            · by_cases hzy : z < x
              · simp [hyz, hzy] at hbc
              · simp [hxy, hyz, hzy] at hab hbc ⊢
                exact ih ys zs hab hbc

theorem sortInsert_perm (le : α → α → Bool) (x : α) :
    ∀ l : List α, (sortInsert le x l).Perm (x :: l) := by
  intro l
  induction l with
  | nil => simp [sortInsert]
  | cons y ys ih =>
    by_cases h : le y x = true
    · simp only [sortInsert, h, if_true]
      exact (ih.cons y).trans (List.Perm.swap x y ys)
    · have h2 : le y x = false := by simpa using h
      simp [sortInsert, h2]

theorem sortInsert_mem (le : α → α → Bool) (x : α) (l : List α) (b : α)
    (hb : b ∈ sortInsert le x l) : b = x ∨ b ∈ l := by
  have := (sortInsert_perm le x l).mem_iff.mp hb
  simpa using this

theorem sortInsert_pairwise (le : α → α → Bool)
    (htotal : ∀ a b, le a b = true ∨ le b a = true)
    (htrans : ∀ a b c, le a b = true → le b c = true → le a c = true)
    (x : α) :
    ∀ l : List α, l.Pairwise (fun a b => le a b = true) →
      (sortInsert le x l).Pairwise (fun a b => le a b = true) := by
  intro l
  induction l with
  | nil => intro _; simp [sortInsert]
  | cons y ys ih =>
    intro hl
    rw [List.pairwise_cons] at hl
    obtain ⟨hy, hys⟩ := hl
    by_cases h : le y x = true
    · simp only [sortInsert, h, if_true]
      rw [List.pairwise_cons]
      refine ⟨?_, ih hys⟩
      intro b hb
      rcases sortInsert_mem le x ys b hb with rfl | hmem
      · exact h
      · exact hy b hmem
    · have h2 : le y x = false := by simpa using h
      simp only [sortInsert, h2, Bool.false_eq_true, if_false]
      have hxy : le x y = true := by
        rcases htotal x y with h2 | h2
        · exact h2
        · exact absurd h2 h
      rw [List.pairwise_cons]
      refine ⟨?_, ?_⟩
      · intro b hb
        rcases hb with _ | hmem
        · exact hxy
        · exact htrans x y b hxy (hy b (by assumption))
      · rw [List.pairwise_cons]
        exact ⟨hy, hys⟩

theorem stableSort_pairwise (le : α → α → Bool)
    (htotal : ∀ a b, le a b = true ∨ le b a = true)
    (htrans : ∀ a b c, le a b = true → le b c = true → le a c = true)
    (l : List α) : (stableSort le l).Pairwise (fun a b => le a b = true) := by
  suffices h : ∀ acc : List α, acc.Pairwise (fun a b => le a b = true) →
      (l.foldl (fun acc x => sortInsert le x acc) acc).Pairwise (fun a b => le a b = true) by
    exact h [] (by simp)
  induction l with
  | nil => intro acc hacc; simpa using hacc
  | cons x xs ih =>
    intro acc hacc
    exact ih (sortInsert le x acc) (sortInsert_pairwise le htotal htrans x acc hacc)

theorem stableSort_perm (le : α → α → Bool) (l : List α) : (stableSort le l).Perm l := by
  suffices h : ∀ acc : List α, (l.foldl (fun acc x => sortInsert le x acc) acc).Perm (acc ++ l) by
    simpa using h []
  induction l with
  | nil => intro acc; simp
  | cons x xs ih =>
    intro acc
    simp only [List.foldl_cons]
    refine ((ih (sortInsert le x acc)).trans ?_)
    refine ((sortInsert_perm le x acc).append_right xs).trans ?_
    exact List.perm_middle.symm

theorem lexLe_head_bit {a b : Bool} {ka kb : List Nat}
    (h : lexLe ((if a then 1 else 0) :: ka) ((if b then 1 else 0) :: kb) = true)
    (ha : a = true) : b = true := by
  subst ha
  cases b with
  | true => rfl
  | false => simp [lexLe] at h

/-- C5 (amended): the JSON-RPC pickProviders orders by exactly the three
claimed keys (circuit-closed first, then fewer consecutive failures,
then lower last latency with unknown latency as zero), but the gRPC
pickProviders orders by four keys, inserting the slow-response count
between the failure count and the latency; both return a permutation of
the provider list, and in both every closed-circuit provider is placed
before every open-circuit provider regardless of recorded latency. -/
theorem pickProviders_ordering_spec :
    ∀ (now : Nat) (health : HealthMap) (providers : List RpcProvider),
      (pickProviders now health providers).Pairwise
        (fun a b => lexLe (rpcSortKey now health a) (rpcSortKey now health b) = true) ∧
      (pickProviders now health providers).Perm providers ∧
      (pickProvidersGrpc now health providers).Pairwise
        (fun a b => lexLe (grpcSortKey now health a) (grpcSortKey now health b) = true) ∧
      (pickProvidersGrpc now health providers).Perm providers ∧
      (pickProviders now health providers).Pairwise
        (fun a b => isCircuitOpen now (health a.id) = true →
          isCircuitOpen now (health b.id) = true) ∧
      (pickProvidersGrpc now health providers).Pairwise
        (fun a b => isCircuitOpen now (health a.id) = true →
          isCircuitOpen now (health b.id) = true) := by
  intro now health providers
  have hr := stableSort_pairwise
    (fun a b => lexLe (rpcSortKey now health a) (rpcSortKey now health b))
    (fun a b => lexLe_total _ _) (fun a b c => lexLe_trans _ _ _) providers
  have hg := stableSort_pairwise
    (fun a b => lexLe (grpcSortKey now health a) (grpcSortKey now health b))
    (fun a b => lexLe_total _ _) (fun a b c => lexLe_trans _ _ _) providers
  refine ⟨hr, stableSort_perm _ _, hg, stableSort_perm _ _, ?_, ?_⟩
  · exact hr.imp (fun {a b} hab => fun hopen => lexLe_head_bit hab hopen)
  · exact hg.imp (fun {a b} hab => fun hopen => lexLe_head_bit hab hopen)

def c5Health : HealthMap := fun pid =>
  if pid = "grpc-1" then { lastLatencyMs := some 5, slowCount := 1 }
  else if pid = "grpc-2" then { lastLatencyMs := some 100 }
  else {}

def c5ProviderA : RpcProvider := ⟨"grpc-1", "urlA"⟩

def c5ProviderB : RpcProvider := ⟨"grpc-2", "urlB"⟩

/-- C5 counterexample: two closed-circuit providers with equal failure
counts, latencies 5 and 100 and slow counts 1 and 0; the gRPC order
places the slower-latency provider first, so its output is not sorted
by the three claimed keys. -/
theorem pickProvidersGrpc_fourth_key_cx :
    pickProvidersGrpc 0 c5Health [c5ProviderA, c5ProviderB] = [c5ProviderB, c5ProviderA] ∧
    lexLe (rpcSortKey 0 c5Health c5ProviderB) (rpcSortKey 0 c5Health c5ProviderA) = false := by
  exact ⟨rfl, rfl⟩

/-- C4: recordFailure increments the consecutive-failure counter and, once
the counter has reached 3, opens the circuit until now + 30000, a
strictly future instant at the moment of the mutation, leaving the
circuit state untouched below 3; recordSuccess resets the counter to
zero, clears any open circuit immediately and stores the latency. -/
theorem recordHealth_spec :
    ∀ (st : ProviderHealth) (now latencyMs : Nat),
      (recordFailure st now).consecutiveFailures = st.consecutiveFailures + 1 ∧
      (3 ≤ st.consecutiveFailures + 1 →
        (recordFailure st now).openUntil = some (now + 30000) ∧ now < now + 30000) ∧
      (st.consecutiveFailures + 1 < 3 →
        (recordFailure st now).openUntil = st.openUntil) ∧
      (recordSuccess st latencyMs now).consecutiveFailures = 0 ∧
      (recordSuccess st latencyMs now).openUntil = none ∧
      (recordSuccess st latencyMs now).lastLatencyMs = some latencyMs := by
  intro st now latencyMs
  refine ⟨rfl, ?_, ?_, rfl, rfl, rfl⟩
  · intro h3
    refine ⟨?_, by omega⟩
    simp [recordFailure, h3]
  · intro h3
    have h4 : ¬ 3 ≤ st.consecutiveFailures + 1 := by omega
    simp [recordFailure, h4]

/-- C4 witness: the third failure at instant 5 opens the circuit until
30005, the first failure leaves it closed, and a success clears an open
circuit. -/
theorem recordHealth_spec_w :
    (recordFailure { consecutiveFailures := 2 } 5).openUntil = some 30005 ∧
    (recordFailure { consecutiveFailures := 0 } 5).openUntil = none ∧
    (recordSuccess { consecutiveFailures := 3, openUntil := some 99 } 7 6).openUntil = none := by
  refine ⟨?_, ?_, (recordHealth_spec { consecutiveFailures := 3, openUntil := some 99 } 6 7).2.2.2.2.1⟩
  · exact ((recordHealth_spec { consecutiveFailures := 2 } 5 0).2.1 (by decide)).1
  · have h := (recordHealth_spec { consecutiveFailures := 0 } 5 0).2.2.1 (by decide)
    simpa using h

theorem runThrottle_succ (max windowMs now n : Nat) (record : Option ThrottleRecord) :
    runThrottle max windowMs now (n + 1) record =
      ((if (checkRateLimit max windowMs now record).1.allowed then 1 else 0) +
          (runThrottle max windowMs now n (checkRateLimit max windowMs now record).2).1,
        (runThrottle max windowMs now n (checkRateLimit max windowMs now record).2).2) := by
  cases hstep : checkRateLimit max windowMs now record with
  | mk v r2 =>
    cases hrest : runThrottle max windowMs now n r2 with
    | mk cnt fin => simp [runThrottle, hstep, hrest]

theorem rateVerdictBitTrue (x : Int) (y : Nat) :
    (if (⟨true, x, y⟩ : RateLimitVerdict).allowed = true then 1 else 0) = 1 := rfl

theorem runThrottle_allowed (max windowMs now : Nat) :
    ∀ (j c : Nat), 1 ≤ c → c + j ≤ max →
      runThrottle max windowMs now j (some ⟨c, now + windowMs⟩) =
        (j, some ⟨c + j, now + windowMs⟩) := by
  intro j
  induction j with
  | zero => intro c h1 h2; simp [runThrottle]
  | succ j ih =>
    intro c h1 h2
    rw [runThrottle_succ]
    have hstep : checkRateLimit max windowMs now (some ⟨c, now + windowMs⟩) =
        (⟨true, (max : Int) - ((c : Int) + 1), now + windowMs⟩,
          some ⟨c + 1, now + windowMs⟩) := by
      simp only [checkRateLimit]
      rw [if_neg (by omega), if_neg (by omega)]
    rw [hstep, ih (c + 1) (by omega) (by omega)]
    simp only [Prod.mk.injEq, Option.some.injEq, ThrottleRecord.mk.injEq, rateVerdictBitTrue,
      if_true]
    exact ⟨by omega, by omega, trivial⟩

theorem runThrottle_denied (max windowMs now : Nat) :
    ∀ (j c : Nat), max ≤ c →
      runThrottle max windowMs now j (some ⟨c, now + windowMs⟩) =
        (0, some ⟨c, now + windowMs⟩) := by
  intro j
  induction j with
  | zero => intro c _; rfl
  | succ j ih =>
    intro c h
    rw [runThrottle_succ]
    have hstep : checkRateLimit max windowMs now (some ⟨c, now + windowMs⟩) =
        (⟨false, 0, now + windowMs⟩, some ⟨c, now + windowMs⟩) := by
      simp only [checkRateLimit]
      rw [if_neg (by omega), if_pos (by omega)]
    rw [hstep, ih c h]
    simp

theorem runThrottle_add (max windowMs now : Nat) :
    ∀ (a b : Nat) (record : Option ThrottleRecord),
      runThrottle max windowMs now (a + b) record =
        ((runThrottle max windowMs now a record).1 +
            (runThrottle max windowMs now b (runThrottle max windowMs now a record).2).1,
          (runThrottle max windowMs now b (runThrottle max windowMs now a record).2).2) := by
  intro a
  induction a with
  | zero => intro b record; simp [runThrottle]
  | succ a ih =>
    intro b record
    have hshift : a + 1 + b = (a + b) + 1 := by omega
    rw [hshift, runThrottle_succ, runThrottle_succ, ih]
    simp [Nat.add_assoc]

/-- C3 (amended): the throttle starts a fresh window and allows the
request when there is no record or the stored window is strictly past
(reset_at < now); at the boundary now = reset_at the stored window is
still live.  Within a live window it allows while the count is under
the configured maximum and denies at or over it without touching the
stored counter.  For a positive maximum, exactly max requests of a
window are allowed: max requests in a fresh window are all allowed and
leave the counter at max, and the (max + 1)-th is denied with the
counter still at max. -/
theorem checkRateLimit_spec :
    ∀ (max windowMs now : Nat), 1 ≤ max →
      checkRateLimit max windowMs now none =
        (⟨true, (max : Int) - 1, now + windowMs⟩, some ⟨1, now + windowMs⟩) ∧
      (∀ r : ThrottleRecord, r.resetAt < now →
        checkRateLimit max windowMs now (some r) =
          (⟨true, (max : Int) - 1, now + windowMs⟩, some ⟨1, now + windowMs⟩)) ∧
      (∀ r : ThrottleRecord, now ≤ r.resetAt → r.count < max →
        checkRateLimit max windowMs now (some r) =
          (⟨true, (max : Int) - ((r.count : Int) + 1), r.resetAt⟩,
            some ⟨r.count + 1, r.resetAt⟩)) ∧
      (∀ r : ThrottleRecord, now ≤ r.resetAt → max ≤ r.count →
        checkRateLimit max windowMs now (some r) = (⟨false, 0, r.resetAt⟩, some r)) ∧
      runThrottle max windowMs now max none = (max, some ⟨max, now + windowMs⟩) ∧
      runThrottle max windowMs now (max + 1) none = (max, some ⟨max, now + windowMs⟩) := by
  intro max windowMs now hmax
  have hfresh : checkRateLimit max windowMs now none =
      (⟨true, (max : Int) - 1, now + windowMs⟩, some ⟨1, now + windowMs⟩) := rfl
  obtain ⟨m, rfl⟩ : ∃ m, max = m + 1 := ⟨max - 1, by omega⟩
  refine ⟨rfl, ?_, ?_, ?_, ?_, ?_⟩
  · intro r hr
    simp only [checkRateLimit]
    rw [if_pos hr]
  · intro r h1 h2
    simp only [checkRateLimit]
    rw [if_neg (by omega), if_neg (by omega)]
  · intro r h1 h2
    simp only [checkRateLimit]
    rw [if_neg (by omega), if_pos (by omega)]
  · rw [runThrottle_succ, hfresh,
      runThrottle_allowed (m + 1) windowMs now m 1 (by omega) (by omega)]
    simp only [Prod.mk.injEq, Option.some.injEq, ThrottleRecord.mk.injEq, rateVerdictBitTrue,
      if_true]
    exact ⟨by omega, by omega, trivial⟩
  · rw [runThrottle_succ, hfresh]
    have hrun : runThrottle (m + 1) windowMs now (m + 1) (some ⟨1, now + windowMs⟩) =
        (m, some ⟨m + 1, now + windowMs⟩) := by
      have hadd := runThrottle_add (m + 1) windowMs now m 1 (some ⟨1, now + windowMs⟩)
      rw [runThrottle_allowed (m + 1) windowMs now m 1 (by omega) (by omega)] at hadd
      dsimp only at hadd
      rw [runThrottle_denied (m + 1) windowMs now 1 (1 + m) (by omega)] at hadd
      simpa [Nat.add_comm] using hadd
    rw [hrun]
    simp only [Prod.mk.injEq, Option.some.injEq, ThrottleRecord.mk.injEq, rateVerdictBitTrue,
      if_true]
    exact ⟨by omega, trivial⟩

/-- C3 counterexample: at the window boundary now = reset_at, which the
claim calls expired, the code still treats the stored window as live
and denies the request of a full window instead of starting a fresh
one; and with a configured maximum of 0 the first request of a new
window is allowed rather than exactly zero. -/
theorem checkRateLimit_boundary_cx :
    (checkRateLimit 1 10 5 (some ⟨1, 5⟩)).1.allowed = false ∧
    (checkRateLimit 1 10 5 (some ⟨1, 5⟩)).2 = some ⟨1, 5⟩ ∧
    (checkRateLimit 0 10 0 none).1.allowed = true := by
  exact ⟨rfl, rfl, rfl⟩

/-- C3 witness: the amended claim at maximum 2, window 10, instant 100:
three requests in one fresh window allow exactly two and leave the
counter at two. -/
theorem checkRateLimit_spec_w :
    runThrottle 2 10 100 3 none = (2, some ⟨2, 110⟩) :=
  (checkRateLimit_spec 2 10 100 (by omega)).2.2.2.2.2

theorem attemptProviders_cons_skip (oracle : RpcOracle) (now : Nat) (p : RpcProvider)
    (rest : List RpcProvider) (health : HealthMap) (lastError : Option String)
    (hopen : isCircuitOpen now (health p.id) = true) :
    attemptProviders oracle now (p :: rest) health lastError =
      attemptProviders oracle now rest health lastError := by
  simp [attemptProviders, hopen]

theorem attemptProviders_cons_fail (oracle : RpcOracle) (now : Nat) (p : RpcProvider)
    (rest : List RpcProvider) (health : HealthMap) (lastError : Option String) (e : String)
    (hclosed : isCircuitOpen now (health p.id) = false) (he : oracle p = .error e) :
    attemptProviders oracle now (p :: rest) health lastError =
      ((attemptProviders oracle now rest
          (updateHealth health p.id (recordFailure (health p.id) now)) (some e)).1,
        p.id :: (attemptProviders oracle now rest
          (updateHealth health p.id (recordFailure (health p.id) now)) (some e)).2.1,
        (attemptProviders oracle now rest
          (updateHealth health p.id (recordFailure (health p.id) now)) (some e)).2.2) := by
  cases hsplit : attemptProviders oracle now rest
      (updateHealth health p.id (recordFailure (health p.id) now)) (some e) with
  | mk h3 tail =>
    cases tail with
    | mk attempts res => simp [attemptProviders, hclosed, he, hsplit]

theorem attemptProviders_all_open (oracle : RpcOracle) (now : Nat) :
    ∀ (l : List RpcProvider) (health : HealthMap),
      (∀ p ∈ l, isCircuitOpen now (health p.id) = true) →
      attemptProviders oracle now l health none =
        (health, [], .error "All providers failed") := by
  intro l
  induction l with
  | nil => intro health _; rfl
  | cons p rest ih =>
    intro health hopen
    rw [attemptProviders_cons_skip oracle now p rest health none
      (hopen p (List.mem_cons_self p rest))]
    exact ih health (fun q hq => hopen q (List.mem_cons_of_mem p hq))

theorem attemptProviders_all_fail (oracle : RpcOracle) (now : Nat)
    (errOf : RpcProvider → String) (hfail : ∀ p, oracle p = .error (errOf p)) :
    ∀ (l : List RpcProvider) (health : HealthMap) (lastError : Option String),
      (l.map (fun p => p.id)).Nodup →
      (attemptProviders oracle now l health lastError).2.1 =
        (l.filter (fun p => !(isCircuitOpen now (health p.id)))).map (fun p => p.id) ∧
      (attemptProviders oracle now l health lastError).2.2 =
        .error (match (l.filter (fun p => !(isCircuitOpen now (health p.id)))).getLast? with
          | none => lastError.getD "All providers failed"
          | some p => errOf p) := by
  intro l
  induction l with
  | nil => intro health lastError _; exact ⟨rfl, rfl⟩
  | cons p rest ih =>
    intro health lastError hnodup
    rw [List.map_cons, List.nodup_cons] at hnodup
    obtain ⟨hpid, hrestdup⟩ := hnodup
    by_cases hopen : isCircuitOpen now (health p.id) = true
    · rw [attemptProviders_cons_skip oracle now p rest health lastError hopen]
      have hfilter : (p :: rest).filter (fun p => !(isCircuitOpen now (health p.id))) =
          rest.filter (fun p => !(isCircuitOpen now (health p.id))) := by
        simp [List.filter_cons, hopen]
      rw [hfilter]
      exact ih health lastError hrestdup
    · have hclosed : isCircuitOpen now (health p.id) = false := by
        simpa using hopen
      rw [attemptProviders_cons_fail oracle now p rest health lastError (errOf p) hclosed
        (hfail p)]
      have hsame : ∀ q ∈ rest,
          (!(isCircuitOpen now
            ((updateHealth health p.id (recordFailure (health p.id) now)) q.id))) =
          (!(isCircuitOpen now (health q.id))) := by
        intro q hq
        have hne : q.id ≠ p.id := by
          intro hcontra
          exact hpid (hcontra ▸ List.mem_map_of_mem (fun x => x.id) hq)
        simp [updateHealth, hne]
      have hih := ih (updateHealth health p.id (recordFailure (health p.id) now))
        (some (errOf p)) hrestdup
      rw [List.filter_congr hsame] at hih
      have hfilter : (p :: rest).filter (fun p => !(isCircuitOpen now (health p.id))) =
          p :: rest.filter (fun p => !(isCircuitOpen now (health p.id))) := by
        simp [List.filter_cons, hclosed]
      rw [hfilter]
      refine ⟨by rw [hih.1, List.map_cons], ?_⟩
      rw [hih.2]
      cases hfr : rest.filter (fun p => !(isCircuitOpen now (health p.id))) with
      | nil => simp
      | cons q qs =>
        rw [List.getLast?_cons_cons]
        cases hlast : (q :: qs).getLast? with
        | none => simp at hlast
        | some a => rfl

/-- C2: on a cache miss the providers are attempted strictly in the
health-ordered sequence, with exactly one network attempt for each
provider whose circuit is closed and none for an open-circuit provider;
when every attempt fails the call fails with the last underlying error,
or with the all-providers-failed error when every provider was skipped
— in particular, with every circuit open it fails with zero network
attempts. -/
theorem getTransactionBlock_failover_spec :
    ∀ (oracle : RpcOracle) (providers : List RpcProvider) (health : HealthMap)
      (now ttl capacity : Nat) (cache : TxCache) (digest optionsJson : String)
      (errOf : RpcProvider → String),
      cacheGet now ttl cache (digest ++ ":" ++ optionsJson) = none →
      (providers.map (fun p => p.id)).Nodup →
      ((∀ p, oracle p = .error (errOf p)) →
        (getTransactionBlock oracle providers health now ttl capacity cache digest
            optionsJson).2.2.1 =
          ((pickProviders now health providers).filter
            (fun p => !(isCircuitOpen now (health p.id)))).map (fun p => p.id) ∧
        (((pickProviders now health providers).filter
            (fun p => !(isCircuitOpen now (health p.id)))).map (fun p => p.id)).Nodup ∧
        (getTransactionBlock oracle providers health now ttl capacity cache digest
            optionsJson).2.2.2 =
          .error (match ((pickProviders now health providers).filter
              (fun p => !(isCircuitOpen now (health p.id)))).getLast? with
            | none => "All providers failed"
            | some p => errOf p)) ∧
      ((∀ p ∈ providers, isCircuitOpen now (health p.id) = true) →
        (getTransactionBlock oracle providers health now ttl capacity cache digest
            optionsJson).2.2.1 = [] ∧
        (getTransactionBlock oracle providers health now ttl capacity cache digest
            optionsJson).2.2.2 = .error "All providers failed") := by
  intro oracle providers health now ttl capacity cache digest optionsJson errOf hmiss hnodup
  have hperm : ((pickProviders now health providers).map (fun p => p.id)).Perm
      (providers.map (fun p => p.id)) := (stableSort_perm _ providers).map _
  have hsortdup : ((pickProviders now health providers).map (fun p => p.id)).Nodup :=
    hperm.nodup_iff.mpr hnodup
  constructor
  · intro hfail
    have hloop := attemptProviders_all_fail oracle now errOf hfail
      (pickProviders now health providers) health none hsortdup
    have hfilterdup : (((pickProviders now health providers).filter
        (fun p => !(isCircuitOpen now (health p.id)))).map (fun p => p.id)).Nodup := by
      have hsub : ((pickProviders now health providers).filter
          (fun p => !(isCircuitOpen now (health p.id)))).map (fun p => p.id) |>.Sublist
          ((pickProviders now health providers).map (fun p => p.id)) :=
        (List.filter_sublist _).map _
      exact hsub.nodup hsortdup
    refine ⟨?_, hfilterdup, ?_⟩
    · simp only [getTransactionBlock, hmiss]
      cases hsplit : attemptProviders oracle now (pickProviders now health providers)
          health none with
      | mk h2 tail =>
        cases tail with
        | mk attempts res =>
          rw [hsplit] at hloop
          cases res with
          | ok v =>
            obtain ⟨payload, url⟩ := v
            simpa using hloop.1
          | error e => simpa using hloop.1
    · simp only [getTransactionBlock, hmiss]
      cases hsplit : attemptProviders oracle now (pickProviders now health providers)
          health none with
      | mk h2 tail =>
        cases tail with
        | mk attempts res =>
          rw [hsplit] at hloop
          cases res with
          | ok v =>
            exact absurd hloop.2 (by simp)
          | error e => simpa using hloop.2
  · intro hallopen
    have hopen : ∀ p ∈ pickProviders now health providers,
        isCircuitOpen now (health p.id) = true := by
      intro p hp
      exact hallopen p ((stableSort_perm _ providers).mem_iff.mp hp)
    have hloop := attemptProviders_all_open oracle now
      (pickProviders now health providers) health hopen
    constructor
    · simp only [getTransactionBlock, hmiss, hloop]
    · simp only [getTransactionBlock, hmiss, hloop]

def c2Oracle : RpcOracle := fun p => .error ("down " ++ p.id)

def c2Health : HealthMap := fun _ => {}

def c2Provider1 : RpcProvider := ⟨"provider-1", "u1"⟩

def c2Provider2 : RpcProvider := ⟨"provider-2", "u2"⟩

/-- C2 witness: two healthy providers, both failing: both are attempted
once, in order, and the call fails with the second underlying error. -/
theorem getTransactionBlock_failover_spec_w :
    (getTransactionBlock c2Oracle [c2Provider1, c2Provider2] c2Health 0 600000 500 []
        "d" "o").2.2.1 = ["provider-1", "provider-2"] ∧
    (getTransactionBlock c2Oracle [c2Provider1, c2Provider2] c2Health 0 600000 500 []
        "d" "o").2.2.2 = .error "down provider-2" := by
  have h := (getTransactionBlock_failover_spec c2Oracle [c2Provider1, c2Provider2] c2Health
    0 600000 500 [] "d" "o" (fun p => "down " ++ p.id) rfl (by decide)).1 (fun p => rfl)
  exact ⟨h.1.trans rfl, h.2.2.trans rfl⟩

theorem cacheGet_after_set (capacity now0 now ttl : Nat) (cache : TxCache)
    (key value : String) (hcap : 1 ≤ capacity) (hfresh : now ≤ now0 + ttl) :
    cacheGet now ttl (cacheSet capacity now0 cache key value) key = some ⟨value, now0⟩ := by
  obtain ⟨c, rfl⟩ : ∃ c, capacity = c + 1 := ⟨capacity - 1, by omega⟩
  simp [cacheSet, cacheGet, List.lookup, hfresh]

/-- C6: a fetch that finds a fresh cache entry for the fingerprint
returns immediately, marked cached, with the stored payload and without
touching health state or attempting any provider; in particular a fetch
issued after a put of the same fingerprint, within the time-to-live and
with positive capacity, returns exactly the payload that was stored. -/
theorem getTransactionBlock_cache_spec :
    ∀ (oracle : RpcOracle) (providers : List RpcProvider) (health : HealthMap)
      (now ttl capacity : Nat) (cache : TxCache) (digest optionsJson : String)
      (entry : CacheEntry),
      (cacheGet now ttl cache (digest ++ ":" ++ optionsJson) = some entry →
        getTransactionBlock oracle providers health now ttl capacity cache digest optionsJson =
          (cache, health, [], .ok ⟨entry.value, true, "cache"⟩)) ∧
      (∀ (value : String) (now0 : Nat), 1 ≤ capacity → now ≤ now0 + ttl →
        getTransactionBlock oracle providers health now ttl capacity
            (cacheSet capacity now0 cache (digest ++ ":" ++ optionsJson) value)
            digest optionsJson =
          (cacheSet capacity now0 cache (digest ++ ":" ++ optionsJson) value, health, [],
            .ok ⟨value, true, "cache"⟩)) := by
  intro oracle providers health now ttl capacity cache digest optionsJson entry
  constructor
  · intro hhit
    simp only [getTransactionBlock, hhit]
  · intro value now0 hcap hfresh
    simp only [getTransactionBlock,
      cacheGet_after_set capacity now0 now ttl cache (digest ++ ":" ++ optionsJson) value
        hcap hfresh]

/-- C6 witness: a put at instant 3 followed by a fetch at instant 5
returns the stored payload from the cache with no provider attempts. -/
theorem getTransactionBlock_cache_spec_w :
    getTransactionBlock c2Oracle [c2Provider1] c2Health 5 600000 500
        (cacheSet 500 3 [] ("d" ++ ":" ++ "o") "payload") "d" "o" =
      (cacheSet 500 3 [] ("d" ++ ":" ++ "o") "payload", c2Health, [],
        .ok ⟨"payload", true, "cache"⟩) :=
  (getTransactionBlock_cache_spec c2Oracle [c2Provider1] c2Health 5 600000 500 [] "d" "o"
    ⟨"payload", 3⟩).2 "payload" 3 (by omega) (by omega)

/- ===== Substitution and layout lemmas ===== -/

theorem resolveTypeParametersList_eq_map (typeArgs : List OpenSignatureBody) :
    ∀ l : List OpenSignatureBody,
      resolveTypeParametersList l typeArgs =
        l.map (fun b => resolveTypeParameters b typeArgs) := by
  intro l
  induction l with
  | nil => rfl
  | cons b bs ih =>
    rw [resolveTypeParametersList.eq_def]
    simp [ih]

theorem resolve_typeParam_hit (name : Option String) (inst : List OpenSignatureBody)
    (i : Nat) (typeArgs : List OpenSignatureBody) (h : i < typeArgs.length) :
    resolveTypeParameters (.mk 11 name inst (some i)) typeArgs = typeArgs.get ⟨i, h⟩ := by
  rw [resolveTypeParameters.eq_def]
  simp [List.getElem?_eq_getElem h]

theorem resolve_typeParam_oor (name : Option String) (inst : List OpenSignatureBody)
    (i : Nat) (typeArgs : List OpenSignatureBody) (h : typeArgs.length ≤ i) :
    resolveTypeParameters (.mk 11 name inst (some i)) typeArgs =
      .mk 11 name inst (some i) := by
  rw [resolveTypeParameters.eq_def]
  simp [List.getElem?_eq_none h]

theorem resolve_vector_cons (name : Option String) (tp : Option Nat)
    (inner : OpenSignatureBody) (rest : List OpenSignatureBody)
    (typeArgs : List OpenSignatureBody) :
    resolveTypeParameters (.mk 9 name (inner :: rest) tp) typeArgs =
      .mk 9 name [resolveTypeParameters inner typeArgs] tp := by
  rw [resolveTypeParameters.eq_def]
  simp

theorem resolve_vector_nil (name : Option String) (tp : Option Nat)
    (typeArgs : List OpenSignatureBody) :
    resolveTypeParameters (.mk 9 name [] tp) typeArgs = .mk 9 name [] tp := by
  rw [resolveTypeParameters.eq_def]
  simp

theorem resolve_datatype (name : Option String) (inst : List OpenSignatureBody)
    (tp : Option Nat) (typeArgs : List OpenSignatureBody) :
    resolveTypeParameters (.mk 10 name inst tp) typeArgs =
      .mk 10 name (inst.map (fun b => resolveTypeParameters b typeArgs)) tp := by
  rw [resolveTypeParameters.eq_def]
  simp [resolveTypeParametersList_eq_map]

theorem getPrimitiveBcsType_param (name : Option String) (inst : List OpenSignatureBody)
    (tp : Option Nat) : getPrimitiveBcsType (.mk 11 name inst tp) = none := rfl

theorem buildBcsType_typeParam_oor (oracle : DatatypeOracle) (fuel : Nat)
    (name : Option String) (i : Nat) (typeArgs : List OpenSignatureBody)
    (h : typeArgs.length ≤ i) :
    buildBcsType oracle fuel (.mk 11 name [] (some i)) typeArgs = none := by
  cases fuel with
  | zero => rfl
  | succ fuel =>
    show (match getPrimitiveBcsType (resolveTypeParameters (.mk 11 name [] (some i)) typeArgs)
        with
      | some primitive => some primitive
      | none => _) = none
    rw [resolve_typeParam_oor name [] i typeArgs h]
    rfl

/-- The generic pair struct of the substitution test: fields a : T0 and
b : vector T1, registered as the plain struct 0xa::m::Pair. -/
def pairDatatype : DatatypeDescriptor :=
  { name := some "Pair", kind := some 1,
    fields := [⟨some "a", some (.mk 11 none [] (some 0))⟩,
               ⟨some "b", some (.mk 9 none [.mk 11 none [] (some 1)] none)⟩] }

def pairOracle : DatatypeOracle := fun pkg moduleName name =>
  if pkg = "0xa" && moduleName = "m" && name = "Pair" then some pairDatatype else none

/-- C7: the substitution engine replaces a type-parameter node at index
i by the i-th type argument, leaves the node unchanged when the index
is out of range (after which the layout builder returns no layout, a
decode fallback rather than a crash), rebuilds a vector from its
resolved first element, resolves every type argument of a datatype,
and substituting the parsed type arguments u8 and vector of u64 into a
struct with fields a : T0 and b : vector T1 yields the layout of a
struct with fields a : u8 and b : vector of vector of u64. -/
theorem resolveTypeParameters_spec :
    (∀ (name : Option String) (inst : List OpenSignatureBody) (i : Nat)
       (typeArgs : List OpenSignatureBody) (h : i < typeArgs.length),
       resolveTypeParameters (.mk 11 name inst (some i)) typeArgs = typeArgs.get ⟨i, h⟩) ∧
    (∀ (name : Option String) (inst : List OpenSignatureBody) (i : Nat)
       (typeArgs : List OpenSignatureBody), typeArgs.length ≤ i →
       resolveTypeParameters (.mk 11 name inst (some i)) typeArgs =
         .mk 11 name inst (some i)) ∧
    (∀ (name : Option String) (tp : Option Nat) (inner : OpenSignatureBody)
       (rest : List OpenSignatureBody) (typeArgs : List OpenSignatureBody),
       resolveTypeParameters (.mk 9 name (inner :: rest) tp) typeArgs =
         .mk 9 name [resolveTypeParameters inner typeArgs] tp) ∧
    (∀ (name : Option String) (inst : List OpenSignatureBody) (tp : Option Nat)
       (typeArgs : List OpenSignatureBody),
       resolveTypeParameters (.mk 10 name inst tp) typeArgs =
         .mk 10 name (inst.map (fun b => resolveTypeParameters b typeArgs)) tp) ∧
    (∀ (oracle : DatatypeOracle) (fuel : Nat) (name : Option String) (i : Nat)
       (typeArgs : List OpenSignatureBody), typeArgs.length ≤ i →
       buildBcsType oracle fuel (.mk 11 name [] (some i)) typeArgs = none) ∧
    buildBcsType pairOracle 5 (.mk 10 (some "0xa::m::Pair") [] none)
        (["u8", "vector<u64>"].filterMap parseTypeTagFull) =
      some (.struct "Pair" [("a", .u8), ("b", .vector (.vector .u64))]) := by
  refine ⟨resolve_typeParam_hit, resolve_typeParam_oor, resolve_vector_cons,
    resolve_datatype, buildBcsType_typeParam_oor, ?_⟩
  rfl

/-- C7 witness: resolving T0 against the single type argument u8 yields
u8, and building a layout for an out-of-range parameter T2 with no type
arguments yields no layout instead of failing. -/
theorem resolveTypeParameters_spec_w :
    resolveTypeParameters (.mk 11 none [] (some 0)) [.mk 3 none [] none] =
      .mk 3 none [] none ∧
    buildBcsType (fun _ _ _ => none) 3 (.mk 11 none [] (some 2)) [] = none := by
  constructor
  · exact (resolveTypeParameters_spec.1 none [] 0 [.mk 3 none [] none] (by decide)).trans rfl
  · exact resolveTypeParameters_spec.2.2.2.2.1 (fun _ _ _ => none) 3 none 2 [] (by decide)

mutual

/-- Stated from the spec wording: whether a resolved type still contains
an unresolved type-parameter node anywhere inside it. -/
def specContainsUnresolvedParam : OpenSignatureBody → Bool
  | .mk t _ inst _ => decide (t = 11) || specContainsUnresolvedParamList inst

def specContainsUnresolvedParamList : List OpenSignatureBody → Bool
  | [] => false
  | b :: bs => specContainsUnresolvedParam b || specContainsUnresolvedParamList bs

end

/-- A plain struct with one concrete u8 field, used with a phantom
unresolved instantiation argument. -/
def boxDatatype : DatatypeDescriptor :=
  { name := some "Box", kind := some 1,
    fields := [⟨some "x", some (.mk 3 none [] none)⟩] }

def boxOracle : DatatypeOracle := fun pkg moduleName name =>
  if pkg = "0xp" && moduleName = "m" && name = "Box" then some boxDatatype else none

/-- C8 counterexample: a datatype body instantiated with the unresolved
type parameter T9 and no type arguments still builds a complete struct
layout, although the resolved type still contains an unresolved
type-parameter node, because the builder never inspects instantiation
arguments that no field uses. -/
theorem buildBcsType_phantom_cx :
    buildBcsType boxOracle 3 (.mk 10 (some "0xp::m::Box") [.mk 11 none [] (some 9)] none)
        [] = some (.struct "Box" [("x", .u8)]) ∧
    specContainsUnresolvedParam
        (resolveTypeParameters (.mk 10 (some "0xp::m::Box") [.mk 11 none [] (some 9)] none)
          []) = true := by
  exact ⟨rfl, rfl⟩

theorem buildBcsType_succ (oracle : DatatypeOracle) (fuel : Nat) (body : OpenSignatureBody)
    (typeArgs : List OpenSignatureBody) :
    buildBcsType oracle (fuel + 1) body typeArgs =
      match getPrimitiveBcsType (resolveTypeParameters body typeArgs) with
      | some primitive => some primitive
      | none =>
        if (resolveTypeParameters body typeArgs).tag = 9 then
          match (resolveTypeParameters body typeArgs).inst with
          | [] => none
          | inner :: _ =>
            match buildBcsType oracle fuel inner typeArgs with
            | none => none
            | some innerType => some (.vector innerType)
        else if (resolveTypeParameters body typeArgs).tag = 10 &&
            (resolveTypeParameters body typeArgs).typeName.isSome then
          match getDatatypeDescriptor oracle
              ((resolveTypeParameters body typeArgs).typeName.getD "") with
          | none => none
          | some datatype =>
            if datatype.kind ≠ some 1 then none
            else
              let fieldLayouts := datatype.fields.map (fun field =>
                match field.name, field.fieldType with
                | some fname, some ftype =>
                  (buildBcsType oracle fuel ftype typeArgs).map (fun l => (fname, l))
                | _, _ => none)
              if fieldLayouts.all Option.isSome then
                some (.struct (datatype.name.getD "Struct") (fieldLayouts.filterMap id))
              else none
        else none := rfl

/-- C8 (amended): the layout builder returns no layout when the resolved
type is itself an unresolved type parameter, when the referenced
datatype is unavailable, when its kind is not the plain-struct kind 1,
when any field of a struct fails to build (a missing name or type, or a
failing sub-layout, spoils the whole struct), and when a vector element
fails to build — but an unresolved type parameter sitting in an
instantiation slot that no field uses does not prevent the layout. -/
theorem buildBcsType_unsupported_spec :
    (∀ (oracle : DatatypeOracle) (fuel : Nat) (name : Option String) (i : Nat)
       (typeArgs : List OpenSignatureBody), typeArgs.length ≤ i →
       buildBcsType oracle fuel (.mk 11 name [] (some i)) typeArgs = none) ∧
    (∀ (oracle : DatatypeOracle) (fuel : Nat) (tn : String)
       (inst : List OpenSignatureBody) (tp : Option Nat) (args : List OpenSignatureBody),
       getDatatypeDescriptor oracle tn = none →
       buildBcsType oracle (fuel + 1) (.mk 10 (some tn) inst tp) args = none) ∧
    (∀ (oracle : DatatypeOracle) (fuel : Nat) (tn : String)
       (inst : List OpenSignatureBody) (tp : Option Nat) (args : List OpenSignatureBody)
       (dt : DatatypeDescriptor),
       getDatatypeDescriptor oracle tn = some dt → dt.kind ≠ some 1 →
       buildBcsType oracle (fuel + 1) (.mk 10 (some tn) inst tp) args = none) ∧
    (∀ (oracle : DatatypeOracle) (fuel : Nat) (tn : String)
       (inst : List OpenSignatureBody) (tp : Option Nat) (args : List OpenSignatureBody)
       (dt : DatatypeDescriptor) (f : FieldDescriptor),
       getDatatypeDescriptor oracle tn = some dt → dt.kind = some 1 → f ∈ dt.fields →
       (match f.name, f.fieldType with
        | some _, some ftype => buildBcsType oracle fuel ftype args = none
        | _, _ => True) →
       buildBcsType oracle (fuel + 1) (.mk 10 (some tn) inst tp) args = none) ∧
    (∀ (oracle : DatatypeOracle) (fuel : Nat) (name : Option String) (tp : Option Nat)
       (inner : OpenSignatureBody) (rest : List OpenSignatureBody)
       (args : List OpenSignatureBody),
       buildBcsType oracle fuel (resolveTypeParameters inner args) args = none →
       buildBcsType oracle (fuel + 1) (.mk 9 name (inner :: rest) tp) args = none) := by
  refine ⟨buildBcsType_typeParam_oor, ?_, ?_, ?_, ?_⟩
  · intro oracle fuel tn inst tp args hnone
    rw [buildBcsType_succ, resolve_datatype]
    simp [getPrimitiveBcsType, OpenSignatureBody.tag, OpenSignatureBody.typeName, hnone]
  · intro oracle fuel tn inst tp args dt hsome hkind
    rw [buildBcsType_succ, resolve_datatype]
    simp [getPrimitiveBcsType, OpenSignatureBody.tag, OpenSignatureBody.typeName, hsome, hkind]
  · intro oracle fuel tn inst tp args dt f hsome hkind hf hfail
    rw [buildBcsType_succ, resolve_datatype]
    have hgf : (match f.name, f.fieldType with
        | some fname, some ftype =>
          (buildBcsType oracle fuel ftype args).map (fun l => (fname, l))
        | _, _ => none) = (none : Option (String × BcsLayout)) := by
      cases f with
      | mk fn ft =>
        cases fn with
        | none => cases ft <;> rfl
        | some a =>
          cases ft with
          | none => rfl
          | some ftv =>
            simp only [FieldDescriptor.name, FieldDescriptor.fieldType] at hfail
            simp [hfail]
    have hall : (dt.fields.map (fun field =>
        match field.name, field.fieldType with
        | some fname, some ftype =>
          (buildBcsType oracle fuel ftype args).map (fun l => (fname, l))
        | _, _ => none)).all Option.isSome = false := by
      rw [List.all_eq_false]
      refine ⟨none, ?_, by simp⟩
      have := List.mem_map_of_mem (fun field =>
        match field.name, field.fieldType with
        | some fname, some ftype =>
          (buildBcsType oracle fuel ftype args).map (fun l => (fname, l))
        | _, _ => none) hf
      dsimp only at this
      rwa [hgf] at this
    simp [getPrimitiveBcsType, OpenSignatureBody.tag, OpenSignatureBody.typeName, hsome,
      hkind, hall]
  · intro oracle fuel name tp inner rest args hinner
    rw [buildBcsType_succ, resolve_vector_cons]
    simp [getPrimitiveBcsType, OpenSignatureBody.tag, OpenSignatureBody.inst, hinner]

/-- An enum datatype descriptor (kind 2). -/
def enumDatatype : DatatypeDescriptor :=
  { name := some "Choice", kind := some 2, fields := [] }

def enumOracle : DatatypeOracle := fun pkg moduleName name =>
  if pkg = "0xe" && moduleName = "m" && name = "Choice" then some enumDatatype else none

/-- C8 witness: a datatype whose descriptor has the enum kind 2 builds
no layout. -/
theorem buildBcsType_unsupported_spec_w :
    buildBcsType enumOracle 4 (.mk 10 (some "0xe::m::Choice") [] none) [] = none :=
  buildBcsType_unsupported_spec.2.2.1 enumOracle 3 "0xe::m::Choice" [] none [] enumDatatype
    rfl (by decide)

/- ===== Decoder loop lemmas ===== -/

theorem decodeArgsLoop_oor (oracle : DatatypeOracle) (fuel : Nat) (params : List OpenSignature)
    (inputs : List CallInput) (objectTypes : List (String × String))
    (typeArgs : List OpenSignatureBody) :
    ∀ (args : List CallArgument) (i : Nat),
      (∀ a ∈ args, ∀ n, getInputIndex a = some n → inputs.length ≤ n) →
      decodeArgsLoop oracle fuel params inputs objectTypes typeArgs i args = .ok [] := by
  intro args
  induction args with
  | nil => intro i _; rfl
  | cons arg rest ih =>
    intro i hoor
    have hrest := ih (i + 1) (fun a ha n hn => hoor a (List.mem_cons_of_mem arg ha) n hn)
    rw [decodeArgsLoop.eq_def]
    cases hidx : getInputIndex arg with
    | none => simpa [hidx] using hrest
    | some n =>
      have hlen := hoor arg (List.mem_cons_self arg rest) n hidx
      have hnone : inputs[n]? = none := List.getElem?_eq_none hlen
      cases hpb : (params[i]?).bind (fun p => p.body) with
      | none => simpa [hidx, hnone, hpb] using hrest
      | some paramBody => simpa [hidx, hnone, hpb, objectIdOf, abiPureBytes] using hrest

/-- C9 (amended): a digest that fails shape validation is rejected with
a 400 response before the rate limiter or any provider runs, with zero
network attempts; an argument reference whose input index is out of
range, however, is not rejected as malformed input: the live decoder
silently skips every such argument and returns ok without an entry for
it. -/
theorem malformedInput_spec :
    (∀ (oracle : RpcOracle) (providers : List RpcProvider) (health : HealthMap)
       (now ttl capacity : Nat) (cache : TxCache) (rateMax rateWindow : Nat)
       (rateRecord : Option ThrottleRecord) (rawDigest optionsJson : String),
       validateDigest rawDigest = none →
       txRoutePost oracle providers health now ttl capacity cache rateMax rateWindow
         rateRecord rawDigest optionsJson =
         (.badRequest "Digest must be base58 or hex.", [])) ∧
    (∀ (fnOracle : FunctionOracle) (dtOracle : DatatypeOracle) (fuel : Nat)
       (req : MoveCallAbiRequest),
       (∀ a ∈ req.arguments, ∀ n, getInputIndex a = some n → req.inputs.length ≤ n) →
       decodeMoveCallArgsWithAbi fnOracle dtOracle fuel req = .ok []) := by
  constructor
  · intro oracle providers health now ttl capacity cache rateMax rateWindow rateRecord
      rawDigest optionsJson hinvalid
    simp [txRoutePost, hinvalid]
  · intro fnOracle dtOracle fuel req hoor
    cases hfn : fnOracle req.packageId req.moduleName req.functionName with
    | none => simp [decodeMoveCallArgsWithAbi, hfn]
    | some fn =>
      cases hparams : fn.parameters with
      | none => simp [decodeMoveCallArgsWithAbi, hfn, hparams]
      | some params =>
        simp only [decodeMoveCallArgsWithAbi, hfn, hparams]
        exact decodeArgsLoop_oor dtOracle fuel params req.inputs req.objectTypes _
          req.arguments 0 hoor

/-- A function oracle exposing a single u64 parameter for every
function. -/
def u64FnOracle : FunctionOracle := fun _ _ _ =>
  some ⟨some [⟨some (.mk 6 none [] none)⟩]⟩

/-- C9 counterexample: an argument referencing input index 5 when only
one input exists is not rejected as a malformed-input error: the
decoder returns ok and silently omits the argument. -/
theorem outOfRange_silent_cx :
    decodeMoveCallArgsWithAbi u64FnOracle (fun _ _ _ => none) 9
      { packageId := "p", moduleName := "m", functionName := "f", typeArguments := [],
        arguments := [.inputCap 5], inputs := [⟨none, none, none⟩], objectTypes := [] } =
      .ok [] := rfl

/-- C9 witness: a short digest is turned away with no provider attempts,
and an out-of-range argument reference decodes to the empty list. -/
theorem malformedInput_spec_w :
    txRoutePost c2Oracle [c2Provider1] c2Health 0 600000 500 [] 30 60000 none "xx" "o" =
      (.badRequest "Digest must be base58 or hex.", []) ∧
    decodeMoveCallArgsWithAbi u64FnOracle (fun _ _ _ => none) 7
      { packageId := "p", moduleName := "m", functionName := "f", typeArguments := [],
        arguments := [.inputCap 9], inputs := [], objectTypes := [] } = .ok [] := by
  constructor
  · exact malformedInput_spec.1 c2Oracle [c2Provider1] c2Health 0 600000 500 [] 30 60000
      none "xx" "o" rfl
  · refine malformedInput_spec.2 u64FnOracle (fun _ _ _ => none) 7 _ ?_
    intro a ha n hn
    simp only [List.mem_singleton] at ha
    subst ha
    simp only [getInputIndex, Option.some.injEq] at hn
    cases hn
    decide

theorem decodeArgsLoop_entries (oracle : DatatypeOracle) (fuel : Nat)
    (params : List OpenSignature) (inputs : List CallInput)
    (objectTypes : List (String × String)) (typeArgs : List OpenSignatureBody) :
    ∀ (args : List CallArgument) (i : Nat) (ds : List DecodedArg),
      decodeArgsLoop oracle fuel params inputs objectTypes typeArgs i args = .ok ds →
      (∀ e ∈ ds, i ≤ e.index ∧ e.index < i + args.length) ∧
      ds.Chain' (fun a b => a.index < b.index) := by
  intro args
  induction args with
  | nil =>
    intro i ds h
    have hds : ([] : List DecodedArg) = ds := by simpa [decodeArgsLoop] using h
    subst hds
    simp
  | cons arg rest ih =>
    intro i ds h
    have hweaken : decodeArgsLoop oracle fuel params inputs objectTypes typeArgs (i + 1)
          rest = .ok ds →
        (∀ e ∈ ds, i ≤ e.index ∧ e.index < i + (arg :: rest).length) ∧
        ds.Chain' (fun a b => a.index < b.index) := by
      intro hds
      obtain ⟨hb, hc⟩ := ih (i + 1) ds hds
      refine ⟨fun e he => ?_, hc⟩
      obtain ⟨h1, h2⟩ := hb e he
      simp only [List.length_cons]
      omega
    have hpush : ∀ (v t : String) (ds' : List DecodedArg),
        decodeArgsLoop oracle fuel params inputs objectTypes typeArgs (i + 1)
          rest = .ok ds' →
        ds = (⟨i, v, t⟩ : DecodedArg) :: ds' →
        (∀ e ∈ ds, i ≤ e.index ∧ e.index < i + (arg :: rest).length) ∧
        ds.Chain' (fun a b => a.index < b.index) := by
      intro v t ds' hds hcons
      subst hcons
      obtain ⟨hb, hc⟩ := ih (i + 1) ds' hds
      constructor
      · intro e he
        rcases List.mem_cons.mp he with rfl | hmem
        · exact ⟨Nat.le_refl i, by simp only [List.length_cons]; omega⟩
        · obtain ⟨h1, h2⟩ := hb e hmem
          simp only [List.length_cons]
          omega
      · rw [List.chain'_cons']
        refine ⟨?_, hc⟩
        intro b hbhead
        have hbmem : b ∈ ds' := List.mem_of_mem_head? hbhead
        exact Nat.lt_of_lt_of_le (Nat.lt_succ_self i) (hb b hbmem).1
    rw [decodeArgsLoop.eq_def] at h
    cases hidx : getInputIndex arg with
    | none =>
      simp only [hidx] at h
      exact hweaken h
    | some n =>
      simp only [hidx] at h
      cases hpb : (params[i]?).bind (fun p => p.body) with
      | none =>
        simp only [hpb] at h
        exact hweaken h
      | some paramBody =>
        simp only [hpb] at h
        cases hoid : objectIdOf ((inputs[n]?).bind (fun inp => inp.object)) with
        | some oid =>
          simp only [hoid] at h
          cases hskip : decodeArgsLoop oracle fuel params inputs objectTypes typeArgs
              (i + 1) rest with
          | error e => simp [hskip] at h
          | ok ds' =>
            simp only [hskip, Except.ok.injEq] at h
            exact hpush _ _ ds' hskip h.symm
        | none =>
          simp only [hoid] at h
          cases hab : abiPureBytes inputs[n]? with
          | error e => simp [hab] at h
          | ok obytes =>
            cases obytes with
            | none =>
              simp only [hab] at h
              exact hweaken h
            | some bytes =>
              simp only [hab] at h
              cases hdv : decodeArgValue oracle fuel paramBody bytes typeArgs with
              | error e => simp [hdv] at h
              | ok oval =>
                cases oval with
                | none =>
                  simp only [hdv] at h
                  exact hweaken h
                | some value =>
                  simp only [hdv] at h
                  cases hskip : decodeArgsLoop oracle fuel params inputs objectTypes
                      typeArgs (i + 1) rest with
                  | error e => simp [hskip] at h
                  | ok ds' =>
                    simp only [hskip, Except.ok.injEq] at h
                    exact hpush _ _ ds' hskip h.symm

/-- C1 (amended): decodeMoveCallArgsWithAbi does not guarantee one entry
per input argument: when it returns normally the entries carry strictly
increasing argument indexes below the argument count (so at most one
entry per argument), arguments that fail to classify or decode are
omitted with no fallback entry, a missing function descriptor yields
the empty list, and byte-decode failures are thrown to the caller
rather than absorbed. -/
theorem decodeMoveCallArgsWithAbi_entries_spec :
    (∀ (fnOracle : FunctionOracle) (dtOracle : DatatypeOracle) (fuel : Nat)
       (req : MoveCallAbiRequest) (ds : List DecodedArg),
       decodeMoveCallArgsWithAbi fnOracle dtOracle fuel req = .ok ds →
       (∀ e ∈ ds, e.index < req.arguments.length) ∧
       ds.Chain' (fun a b => a.index < b.index)) ∧
    (∀ (fnOracle : FunctionOracle) (dtOracle : DatatypeOracle) (fuel : Nat)
       (req : MoveCallAbiRequest),
       fnOracle req.packageId req.moduleName req.functionName = none →
       decodeMoveCallArgsWithAbi fnOracle dtOracle fuel req = .ok []) := by
  constructor
  · intro fnOracle dtOracle fuel req ds h
    cases hfn : fnOracle req.packageId req.moduleName req.functionName with
    | none =>
      simp only [decodeMoveCallArgsWithAbi, hfn] at h
      obtain rfl : ([] : List DecodedArg) = ds := by simpa using h
      simp
    | some fn =>
      cases hparams : fn.parameters with
      | none =>
        simp only [decodeMoveCallArgsWithAbi, hfn, hparams] at h
        obtain rfl : ([] : List DecodedArg) = ds := by simpa using h
        simp
      | some params =>
        simp only [decodeMoveCallArgsWithAbi, hfn, hparams] at h
        obtain ⟨hb, hc⟩ := decodeArgsLoop_entries dtOracle fuel params req.inputs
          req.objectTypes (req.typeArguments.filterMap parseTypeTagFull)
          req.arguments 0 ds h
        exact ⟨fun e he => by have := (hb e he).2; omega, hc⟩
  · intro fnOracle dtOracle fuel req hfn
    simp [decodeMoveCallArgsWithAbi, hfn]

/-- C1 counterexample: with one u64 parameter, a prior-command-result
argument yields no output entry at all (ok with the empty list rather
than a one-entry fallback), and a one-byte pure argument makes the call
throw a byte-decode error instead of returning a degraded entry. -/
theorem decodeMoveCallArgsWithAbi_cx :
    decodeMoveCallArgsWithAbi u64FnOracle (fun _ _ _ => none) 9
        { packageId := "p", moduleName := "m", functionName := "f", typeArguments := [],
          arguments := [.resultRef 0], inputs := [], objectTypes := [] } = .ok [] ∧
    decodeMoveCallArgsWithAbi u64FnOracle (fun _ _ _ => none) 9
        { packageId := "p", moduleName := "m", functionName := "f", typeArguments := [],
          arguments := [.inputCap 0],
          inputs := [⟨none, some (.objVal (some (.rawBytes [1])) none), none⟩],
          objectTypes := [] } = .error bcsEof := by
  exact ⟨rfl, rfl⟩

/-- C1 witness: a successful one-argument decode satisfies the index
bound and the strict ordering of entries. -/
theorem decodeMoveCallArgsWithAbi_entries_spec_w :
    (∀ e ∈ [(⟨0, "0xobj", "u64"⟩ : DecodedArg)], e.index < 1) ∧
    ([(⟨0, "0xobj", "u64"⟩ : DecodedArg)]).Chain' (fun a b => a.index < b.index) := by
  have h := decodeMoveCallArgsWithAbi_entries_spec.1 u64FnOracle (fun _ _ _ => none) 9
    { packageId := "p", moduleName := "m", functionName := "f", typeArguments := [],
      arguments := [.inputCap 0],
      inputs := [⟨some ⟨some "0xobj", none, none, none⟩, none, none⟩], objectTypes := [] }
    [⟨0, "0xobj", "u64"⟩] rfl
  exact h

theorem decodeArgsOfflineLoop_pureless (fuel : Nat) (types : List String)
    (inputs : List CallInput)
    (hinputs : ∀ inp ∈ inputs, inp.pureCap = none ∧ inp.pureLow = none) :
    ∀ (args : List CallArgument) (i : Nat),
      decodeArgsOfflineLoop fuel types inputs i args = .ok [] := by
  intro args
  induction args with
  | nil => intro i; rfl
  | cons arg rest ih =>
    intro i
    rw [decodeArgsOfflineLoop.eq_def]
    cases hidx : getInputIndex arg with
    | none => simpa [hidx] using ih (i + 1)
    | some n =>
      cases hin : inputs[n]? with
      | none => simpa [hidx, hin, getPureBytes] using ih (i + 1)
      | some inp =>
        have hmem : inp ∈ inputs := by
          have := List.getElem?_eq_some.mp hin
          obtain ⟨hlt, rfl⟩ := this
          exact List.getElem_mem hlt
        obtain ⟨h1, h2⟩ := hinputs inp hmem
        simpa [hidx, hin, getPureBytes, h1, h2] using ih (i + 1)

/-- C10: in the live decoder an argument whose referenced input carries
an object id is rendered as the object label — the object id with its
mapped type when one is known — for every choice of pure bytes on the
same input and independently of the datatype oracle and fuel, so byte
decoding is never attempted for such an argument; the offline decoder
reads only the pure slots, producing nothing for inputs with no pure
slot, and decodes the pure bytes of a mixed input while ignoring its
object id. -/
theorem objectPrecedence_spec :
    (∀ (fnOracle : FunctionOracle) (dtOracle : DatatypeOracle) (fuel : Nat)
       (pkg moduleName functionName : String) (typeArguments : List String)
       (paramBody : OpenSignatureBody) (obj : ObjectArgRecord) (oid : String)
       (pureCap pureLow : Option PureField) (objectTypes : List (String × String)),
       fnOracle pkg moduleName functionName = some ⟨some [⟨some paramBody⟩]⟩ →
       objectIdOf (some obj) = some oid →
       decodeMoveCallArgsWithAbi fnOracle dtOracle fuel
         ⟨pkg, moduleName, functionName, typeArguments, [.inputCap 0],
           [⟨some obj, pureCap, pureLow⟩], objectTypes⟩ =
         .ok [⟨0,
           match objectTypes.lookup oid with
           | some objectType => oid ++ " (" ++ objectType ++ ")"
           | none => oid,
           paramBody.typeName.getD (formatOpenSignatureBody paramBody)⟩]) ∧
    (∀ (fuel : Nat) (signature : Option String) (args : List CallArgument)
       (inputs : List CallInput),
       (∀ inp ∈ inputs, inp.pureCap = none ∧ inp.pureLow = none) →
       decodeMoveCallArgs fuel signature args inputs = .ok []) ∧
    decodeMoveCallArgs 9 (some "m::f(u8)") [.inputCap 0]
        [⟨some ⟨some "0xobj", none, none, none⟩,
          some (.objVal (some (.rawBytes [7])) none), none⟩] = .ok ["u8 = 7"] := by
  refine ⟨?_, ?_, rfl⟩
  · intro fnOracle dtOracle fuel pkg moduleName functionName typeArguments paramBody obj
      oid pureCap pureLow objectTypes hfn hobj
    simp only [decodeMoveCallArgsWithAbi, hfn]
    rw [decodeArgsLoop.eq_def]
    simp only [getInputIndex]
    rw [show ([({ body := some paramBody } : OpenSignature)][0]?).bind (fun p => p.body) =
      some paramBody from rfl]
    rw [show ([(⟨some obj, pureCap, pureLow⟩ : CallInput)][0]?).bind
      (fun inp => inp.object) = some obj from rfl]
    rw [hobj]
    rfl
  · intro fuel signature args inputs hinputs
    by_cases htypes : (parseParamTypes signature).length = 0
    · simp [decodeMoveCallArgs, htypes]
    · simp only [decodeMoveCallArgs, htypes, if_false]
      exact decodeArgsOfflineLoop_pureless fuel (parseParamTypes signature) inputs
        hinputs args 0

/-- C10 witness: a mixed input carrying both an object id and pure
bytes decodes in the live path to the object label with its mapped
type, not to a byte decode. -/
theorem objectPrecedence_spec_w :
    decodeMoveCallArgsWithAbi u64FnOracle (fun _ _ _ => none) 9
        { packageId := "p", moduleName := "m", functionName := "f", typeArguments := [],
          arguments := [.inputCap 0],
          inputs := [⟨some ⟨some "0xobj", none, none, none⟩,
            some (.objVal (some (.rawBytes [1])) none), none⟩],
          objectTypes := [("0xobj", "0xa::m::Coin")] } =
      .ok [⟨0, "0xobj (0xa::m::Coin)", "u64"⟩] := by
  have h := objectPrecedence_spec.1 u64FnOracle (fun _ _ _ => none) 9 "p" "m" "f" []
    (.mk 6 none [] none) ⟨some "0xobj", none, none, none⟩ "0xobj"
    (some (.objVal (some (.rawBytes [1])) none)) none [("0xobj", "0xa::m::Coin")] rfl rfl
  exact h.trans rfl

/-- C5 witness: the amended ordering applied at a concrete two-provider
health state: the JSON-RPC order is a permutation of the input. -/
theorem pickProviders_ordering_spec_w :
    (pickProviders 0 c5Health [c5ProviderA, c5ProviderB]).Perm
      [c5ProviderA, c5ProviderB] :=
  (pickProviders_ordering_spec 0 c5Health [c5ProviderA, c5ProviderB]).2.1
